import Mathlib

/-!
Verification of the CP-SAT timetable engine of `solver/app/solver/optimizer.py`
and the stand-alone validator of `solver/app/solver/validator.py`.

Shallow embedding conventions:
* `HH:MM` time strings are represented by their minute-of-day value (`Nat`);
  `_time_to_minutes` is the bijection between well-formed zero-padded `HH:MM`
  strings and minutes, so all string time arithmetic of the source is carried
  out directly on minutes.  Availability and preference entries of the form
  `"HH:MM-HH:MM"` are represented as `(start, end)` minute pairs (the source
  skips entries without a `'-'`; only the well-formed entries are modelled).
* Python `dict`s keyed by entity id are association lists built by insertions
  that keep the first-insertion position and overwrite the value, exactly like
  CPython dicts; iteration order is list order.
* The CP-SAT model is represented by the list of decision-variable keys, the
  list of emitted linear constraints and the list of emitted penalty terms.
  The external solver is abstracted by an outcome (status, boolean valuation
  of the decision variables, values of the penalty/auxiliary variables);
  `SolverOk` states the CP-SAT contract: an OPTIMAL/FEASIBLE outcome valuates
  the model consistently, and INFEASIBLE is only reported for unsatisfiable
  models.  `ObjectiveValue()` is the weighted sum of the penalty values.
* Python exceptions (`KeyError` on a missing dict key, `ValueError` of
  `min()` on an empty sequence) are modelled by `Except String`.
-/

/-- Days of the week (`Day` enum of `schemas.py`). -/
inductive Day where
  | monday | tuesday | wednesday | thursday | friday | saturday | sunday
deriving DecidableEq, Repr

/-- The `CourseInput` of `schemas.py`; `duration` is in minutes. -/
structure CourseInput where
  id : Int
  code : String
  title : String
  duration : Nat
  department : String
  room_type : Option String
  instructor_ids : List Int
  group_ids : List Int
deriving DecidableEq, Repr

/-- The two recognized keys of the optional instructor `preferences` dict:
`preferredDays` (day enum values) and `preferredTimes` (time ranges in
minutes); a key absent from the dict is the empty list (`prefs.get(..., [])`). -/
structure InstructorPrefs where
  preferredDays : List Day
  preferredTimes : List (Nat × Nat)
deriving DecidableEq, Repr

/-- The `InstructorInput` of `schemas.py`; `availability` maps a day to the parsed
`"HH:MM-HH:MM"` ranges (a day absent from the dict has no entry). -/
structure InstructorInput where
  id : Int
  name : String
  department : String
  teaching_load : Int
  availability : List (Day × List (Nat × Nat))
  preferences : Option InstructorPrefs
deriving DecidableEq, Repr

/-- The `RoomInput` of `schemas.py`. -/
structure RoomInput where
  id : Int
  name : String
  capacity : Int
  type : String
  equipment : Option (List String)
deriving DecidableEq, Repr

/-- The `StudentGroupInput` of `schemas.py`. -/
structure StudentGroupInput where
  id : Int
  name : String
  size : Int
  course_ids : List Int
deriving DecidableEq, Repr

/-- The `ConstraintConfigInput` of `schemas.py`; working hours as minutes. -/
structure ConstraintConfigInput where
  hard : List (String × Bool)
  soft : List (String × Int)
  working_hours_start : Nat
  working_hours_end : Nat
deriving DecidableEq, Repr

/-- The `GenerationPayload` of `schemas.py`. -/
structure GenerationPayload where
  courses : List CourseInput
  instructors : List InstructorInput
  rooms : List RoomInput
  groups : List StudentGroupInput
  constraints : ConstraintConfigInput
  time_limit_seconds : Nat
deriving DecidableEq, Repr

/-- The `AssignmentOutput` of `schemas.py`; times in minutes. -/
structure AssignmentOutput where
  course_id : Int
  instructor_id : Int
  room_id : Int
  group_id : Int
  day : Day
  start_time : Nat
  end_time : Nat
deriving DecidableEq, Repr

/-- The `ViolationDetail` of `schemas.py`. -/
structure ViolationDetail where
  constraint_type : String
  severity : String
  description : String
  affected_assignments : List Int
deriving DecidableEq, Repr

/-- The `TimetableResult` of `schemas.py` (the tuple returned by
`optimize_timetable`); `solve_time_seconds` is wall-clock time and is not
modelled. -/
structure TimetableResult where
  success : Bool
  assignments : List AssignmentOutput
  fitness_score : Option Rat
  violations : List ViolationDetail
  message : String
deriving DecidableEq, Repr

/-! ### Python dict emulation (insertion order, value overwrite) -/

/-- Insert into a CPython dict: an existing key keeps its position and gets the
new value, a new key is appended. -/
def dictInsert (k : Int) (v : α) : List (Int × α) → List (Int × α)
  | [] => [(k, v)]
  | (k', v') :: rest =>
      if k' = k then (k', v) :: rest else (k', v') :: dictInsert k v rest

/-- Build a dict `{key(a): a for a in l}`. -/
def buildDict (key : α → Int) (l : List α) : List (Int × α) :=
  l.foldl (fun d a => dictInsert (key a) a d) []

/-- Dict lookup, `none` meaning a `KeyError`. -/
def dictFind? (k : Int) : List (Int × α) → Option α
  | [] => none
  | (k', v) :: rest => if k' = k then some v else dictFind? k rest

/-- Lookup in a string-keyed dict (the `hard`/`soft` rule maps). -/
def strFind? (k : String) : List (String × α) → Option α
  | [] => none
  | (k', v) :: rest => if k' = k then some v else strFind? k rest

/-- The `self.courses = {c.id: c for c in payload.courses}` -/
def coursesDict (p : GenerationPayload) : List (Int × CourseInput) :=
  buildDict (·.id) p.courses

/-- The `self.instructors = {i.id: i for i in payload.instructors}` -/
def instructorsDict (p : GenerationPayload) : List (Int × InstructorInput) :=
  buildDict (·.id) p.instructors

/-- The `self.rooms = {r.id: r for r in payload.rooms}` -/
def roomsDict (p : GenerationPayload) : List (Int × RoomInput) :=
  buildDict (·.id) p.rooms

/-- The `self.groups = {g.id: g for g in payload.groups}` -/
def groupsDict (p : GenerationPayload) : List (Int × StudentGroupInput) :=
  buildDict (·.id) p.groups

/-- The `self.days = [MONDAY .. FRIDAY]` (optimizer and validator operate on the
five weekdays). -/
def weekdays : List Day :=
  [Day.monday, Day.tuesday, Day.wednesday, Day.thursday, Day.friday]

/-- Dict lookup that raises `KeyError` when the key is missing, as the
subscript `d[k]` does in Python. -/
def findE (d : List (Int × α)) (k : Int) : Except String α :=
  match dictFind? k d with
  | some v => Except.ok v
  | none => Except.error "KeyError"

/-! ### Time grid (`TimetableOptimizer._generate_time_slots`) -/

/-- The `min(c.duration for c in self.courses.values())`; `none` is the
`ValueError` that `min()` raises on an empty sequence. -/
def minCourseDuration (p : GenerationPayload) : Option Nat :=
  ((coursesDict p).map (fun e => e.2.duration)).min?

/-- The `_generate_time_slots`: starting at `working_hours_start` and stepping by
the minimum course duration, emit slot start minutes while
`current + min_duration ≤ working_hours_end`.  The source stores
`(start, end)` string pairs; only the starts are consumed downstream, so the
grid is the list of start minutes.  (A zero `min_duration` would loop forever
in the source; durations are positive by the data-model invariant.) -/
def generate_time_slots (p : GenerationPayload) : Except String (List Nat) :=
  match minCourseDuration p with
  | none => Except.error "min() arg is an empty sequence"
  | some step =>
      let ws := p.constraints.working_hours_start
      let we := p.constraints.working_hours_end
      Except.ok ((List.range ((we - ws) / step)).map (fun k => ws + k * step))

/-! ### Decision variables (`create_decision_variables`) -/

/-- The composite key
`(course_id, day, slot_idx, room_id, instructor_id, group_id)` of one
decision variable `x[c,d,s,r,i,g]`. -/
structure VarKey where
  course : Int
  day : Day
  slot : Nat
  room : Int
  instructor : Int
  group : Int
deriving DecidableEq, Repr

/-- Append a key unless already present: duplicate keys (possible only through
duplicated ids inside `instructor_ids`/`group_ids`) collapse onto one dict
entry in the source, keeping the first position. -/
def keyInsert (k : VarKey) (l : List VarKey) : List VarKey :=
  if k ∈ l then l else l ++ [k]

/-- The raw enumeration order of `create_decision_variables`: courses (dict
order), days, slots — a slot is skipped when
`slot_start + duration > working_hours_end` — rooms, the course's
instructor ids, the course's group ids. -/
def enumKeys (p : GenerationPayload) (slots : List Nat) : List VarKey :=
  (coursesDict p).flatMap fun ce =>
    weekdays.flatMap fun d =>
      slots.enum.flatMap fun si =>
        if si.2 + ce.2.duration ≤ p.constraints.working_hours_end then
          (roomsDict p).flatMap fun re =>
            ce.2.instructor_ids.flatMap fun iId =>
              ce.2.group_ids.map fun gId =>
                { course := ce.2.id, day := d, slot := si.1,
                  room := re.2.id, instructor := iId, group := gId }
        else []

/-- The keys of `self.assignment_vars` in dict order. -/
def varKeys (p : GenerationPayload) (slots : List Nat) : List VarKey :=
  (enumKeys p slots).foldl (fun acc k => keyInsert k acc) []

/-! ### Emitted model constraints -/

/-- One linear constraint added by `self.model.Add(...)` over the decision
variables: `sum(vars) == 1`, `sum(vars) <= 1`, or `var == 0`. -/
inductive CpConstraint where
  | exactlyOne (vars : List VarKey)
  | atMostOne (vars : List VarKey)
  | fixFalse (k : VarKey)
deriving DecidableEq, Repr

/-- Number of true variables among `l` under the valuation `x`. -/
def countTrue (x : VarKey → Bool) (l : List VarKey) : Nat :=
  l.countP x

/-- A boolean valuation of the decision variables satisfies one constraint. -/
def constraintHolds (x : VarKey → Bool) : CpConstraint → Bool
  | CpConstraint.exactlyOne l => countTrue x l == 1
  | CpConstraint.atMostOne l => decide (countTrue x l ≤ 1)
  | CpConstraint.fixFalse k => !(x k)

/-- The `self.payload.constraints.hard.get(name, True)`. -/
def hardEnabled (p : GenerationPayload) (name : String) : Bool :=
  (strFind? name p.constraints.hard).getD true

/-- The `get_assignment_vars_for_course`. -/
def varsForCourse (vars : List VarKey) (cId : Int) : List VarKey :=
  vars.filter fun k => decide (k.course = cId)

/-- The `_add_course_assignment_constraint`: `sum == 1` per course, emitted ONLY
when the course has at least one decision variable (`if course_vars:`). -/
def courseAssignmentConstraints (p : GenerationPayload) (vars : List VarKey) :
    List CpConstraint :=
  (coursesDict p).flatMap fun ce =>
    let cv := varsForCourse vars ce.2.id
    if cv.isEmpty then [] else [CpConstraint.exactlyOne cv]

/-- The `self.courses[c_id].duration`; the keys reference courses of the dict so
the subscript always succeeds, `0` is an unreachable default. -/
def durationOf (p : GenerationPayload) (cId : Int) : Nat :=
  ((dictFind? cId (coursesDict p)).map (fun c => c.duration)).getD 0

/-- The `course_duration_slots = (course.duration + len(self.time_slots[0]) - 1)
// len(self.time_slots[0])`.  `self.time_slots[0]` is the `(start, end)` PAIR
of the first slot, so `len(...)` is the tuple length 2, not a minute count:
the computed span is `⌈duration / 2⌉`. -/
def courseDurationSlots (duration : Nat) : Nat :=
  (duration + 2 - 1) / 2

/-- The `s_idx <= slot_idx < s_idx + course_duration_slots` — the occupancy test
used by the room/instructor/group conflict loops. -/
def occupiesSlot (p : GenerationPayload) (k : VarKey) (slotK : Nat) : Bool :=
  decide (k.slot ≤ slotK) &&
    decide (slotK < k.slot + courseDurationSlots (durationOf p k.course))

/-- The `conflicting_vars` list of `_add_room_conflict_constraint` at a
`(room, day, slot)` coordinate. -/
def roomConflictVarsAt (p : GenerationPayload) (vars : List VarKey)
    (rId : Int) (d : Day) (slotK : Nat) : List VarKey :=
  vars.filter fun k =>
    decide (k.room = rId) && decide (k.day = d) && occupiesSlot p k slotK

/-- The `_add_room_conflict_constraint`: a `≤ 1` constraint at each coordinate
with more than one potentially occupying variable. -/
def roomConflictConstraints (p : GenerationPayload) (vars : List VarKey)
    (slots : List Nat) : List CpConstraint :=
  (roomsDict p).flatMap fun re =>
    weekdays.flatMap fun d =>
      (List.range slots.length).filterMap fun slotK =>
        let cv := roomConflictVarsAt p vars re.2.id d slotK
        if cv.length > 1 then some (CpConstraint.atMostOne cv) else none

/-- The `conflicting_vars` list of `_add_instructor_conflict_constraint`. -/
def instructorConflictVarsAt (p : GenerationPayload) (vars : List VarKey)
    (iId : Int) (d : Day) (slotK : Nat) : List VarKey :=
  vars.filter fun k =>
    decide (k.instructor = iId) && decide (k.day = d) && occupiesSlot p k slotK

/-- The `_add_instructor_conflict_constraint` (iterates the instructors dict, so
variables naming an unknown instructor id are not covered). -/
def instructorConflictConstraints (p : GenerationPayload) (vars : List VarKey)
    (slots : List Nat) : List CpConstraint :=
  (instructorsDict p).flatMap fun ie =>
    weekdays.flatMap fun d =>
      (List.range slots.length).filterMap fun slotK =>
        let cv := instructorConflictVarsAt p vars ie.2.id d slotK
        if cv.length > 1 then some (CpConstraint.atMostOne cv) else none

/-- The `conflicting_vars` list of `_add_group_conflict_constraint`. -/
def groupConflictVarsAt (p : GenerationPayload) (vars : List VarKey)
    (gId : Int) (d : Day) (slotK : Nat) : List VarKey :=
  vars.filter fun k =>
    decide (k.group = gId) && decide (k.day = d) && occupiesSlot p k slotK

/-- The `_add_group_conflict_constraint`. -/
def groupConflictConstraints (p : GenerationPayload) (vars : List VarKey)
    (slots : List Nat) : List CpConstraint :=
  (groupsDict p).flatMap fun ge =>
    weekdays.flatMap fun d =>
      (List.range slots.length).filterMap fun slotK =>
        let cv := groupConflictVarsAt p vars ge.2.id d slotK
        if cv.length > 1 then some (CpConstraint.atMostOne cv) else none

/-- The `_add_room_capacity_constraint`: `x = 0` when `group.size > room.capacity`;
`self.groups[g_id]` raises `KeyError` when a course lists an unknown group. -/
def roomCapacityConstraints (p : GenerationPayload) :
    List VarKey → Except String (List CpConstraint)
  | [] => Except.ok []
  | k :: rest => do
      let room ← findE (roomsDict p) k.room
      let grp ← findE (groupsDict p) k.group
      let tail ← roomCapacityConstraints p rest
      if grp.size > room.capacity then
        pure (CpConstraint.fixFalse k :: tail)
      else
        pure tail

/-- The `_add_room_type_constraint`: `x = 0` when the course requires a room type
and the room's type differs. -/
def roomTypeConstraints (p : GenerationPayload) :
    List VarKey → Except String (List CpConstraint)
  | [] => Except.ok []
  | k :: rest => do
      let course ← findE (coursesDict p) k.course
      let room ← findE (roomsDict p) k.room
      let tail ← roomTypeConstraints p rest
      match course.room_type with
      | some rt =>
          if rt ≠ room.type then pure (CpConstraint.fixFalse k :: tail)
          else pure tail
      | none => pure tail

/-- Availability ranges of an instructor on a day:
`instructor.availability.get(day, [])`. -/
def availabilityOn (inst : InstructorInput) (d : Day) : List (Nat × Nat) :=
  match inst.availability.find? (fun e => decide (e.1 = d)) with
  | some e => e.2
  | none => []

/-- The `range_start_min <= slot_start_min < range_end_min` for some range. -/
def slotStartAvailable (ranges : List (Nat × Nat)) (slotStart : Nat) : Bool :=
  ranges.any fun r => decide (r.1 ≤ slotStart) && decide (slotStart < r.2)

/-- The `_add_instructor_availability_constraint`: with no ranges on a day, every
variable of the instructor on that day is fixed to 0; otherwise every variable
at a slot whose start minute is in no range is fixed to 0. -/
def instructorAvailabilityConstraints (p : GenerationPayload)
    (vars : List VarKey) (slots : List Nat) : List CpConstraint :=
  (instructorsDict p).flatMap fun ie =>
    weekdays.flatMap fun d =>
      let ranges := availabilityOn ie.2 d
      if ranges.isEmpty then
        (vars.filter fun k =>
            decide (k.instructor = ie.2.id) && decide (k.day = d)).map
          CpConstraint.fixFalse
      else
        slots.enum.flatMap fun si =>
          if slotStartAvailable ranges si.2 then []
          else
            (vars.filter fun k =>
                decide (k.instructor = ie.2.id) && decide (k.day = d) &&
                  decide (k.slot = si.1)).map
              CpConstraint.fixFalse

/-- A constraint emitter gated by a boolean toggle (`if enabled:` in the
source); disabled rules emit nothing. -/
def gatedE (gate : Bool) (e : Except String (List γ)) :
    Except String (List γ) :=
  if gate then e else pure []

/-- The `add_hard_constraints`: course uniqueness, group non-overlap and
instructor availability always on, the other four gated by
`constraints.hard.get(name, True)`. -/
def add_hard_constraints (p : GenerationPayload) (vars : List VarKey)
    (slots : List Nat) : Except String (List CpConstraint) := do
  let c1 := courseAssignmentConstraints p vars
  let c2 := if hardEnabled p "noRoomDoubleBooking" then
      roomConflictConstraints p vars slots else []
  let c3 := if hardEnabled p "noInstructorDoubleBooking" then
      instructorConflictConstraints p vars slots else []
  let c4 := groupConflictConstraints p vars slots
  let c5 ← gatedE (hardEnabled p "roomCapacityCheck")
      (roomCapacityConstraints p vars)
  let c6 ← gatedE (hardEnabled p "roomTypeMatch")
      (roomTypeConstraints p vars)
  let c7 := instructorAvailabilityConstraints p vars slots
  pure (c1 ++ c2 ++ c3 ++ c4 ++ c5 ++ c6 ++ c7)

/-! ### Soft constraints (`add_soft_constraints`) -/

/-- One emitted penalty term `(penalty_variable, weight)` together with the
constraint linking the penalty variable to the decision variables:
* `boolEq k w` — a fresh `BoolVar` with `model.Add(penalty_var == var)`;
* `gapInd s e mid w` — a fresh `BoolVar` with
  `model.Add(gap >= start_var + end_var - 1 - sum(middle_vars))`;
* `absDiff a b w` — a fresh `IntVar [0,100]` with
  `AddAbsEquality(diff, count_day_i - count_day_j)`, the daily counts being
  aux vars forced equal to `sum(a)` and `sum(b)`. -/
inductive PenaltyTerm where
  | boolEq (k : VarKey) (weight : Int)
  | gapInd (startK endK : VarKey) (middle : List VarKey) (weight : Int)
  | absDiff (aVars bVars : List VarKey) (weight : Int)
deriving DecidableEq, Repr

/-- The stored weight of one penalty term. -/
def termWeight : PenaltyTerm → Int
  | PenaltyTerm.boolEq _ w => w
  | PenaltyTerm.gapInd _ _ _ w => w
  | PenaltyTerm.absDiff _ _ w => w

/-- The `if b then 1 else 0`. -/
def b2n (b : Bool) : Nat := if b then 1 else 0

/-- Smallest value the penalty variable can take in a solution extending the
valuation `x` (for `boolEq`/`absDiff` the value is forced exactly; a gap
indicator is only bounded below, Nat subtraction realizing the clamp at 0). -/
def termLo (x : VarKey → Bool) : PenaltyTerm → Nat
  | PenaltyTerm.boolEq k _ => b2n (x k)
  | PenaltyTerm.gapInd s e mid _ => (b2n (x s) + b2n (x e)) - 1 - countTrue x mid
  | PenaltyTerm.absDiff a b _ =>
      max (countTrue x a) (countTrue x b) - min (countTrue x a) (countTrue x b)

/-- Largest value the penalty variable can take (a gap indicator is a
`BoolVar`, the others are forced). -/
def termHi (x : VarKey → Bool) : PenaltyTerm → Nat
  | PenaltyTerm.boolEq k _ => b2n (x k)
  | PenaltyTerm.gapInd _ _ _ _ => 1
  | PenaltyTerm.absDiff a b _ =>
      max (countTrue x a) (countTrue x b) - min (countTrue x a) (countTrue x b)

/-- The solver's chosen penalty-variable values are consistent with the
valuation `x` of the decision variables. -/
def validVals (terms : List PenaltyTerm) (x : VarKey → Bool)
    (vals : List Nat) : Bool :=
  vals.length == terms.length &&
    (terms.zip vals).all fun tv =>
      decide (termLo x tv.1 ≤ tv.2) && decide (tv.2 ≤ termHi x tv.1)

/-- The `solver.ObjectiveValue()`: the minimized weighted sum
`Σ penalty_value · weight`. -/
def objectiveValue (terms : List PenaltyTerm) (vals : List Nat) : Int :=
  ((terms.zip vals).map (fun tv => (tv.2 : Int) * termWeight tv.1)).sum

/-- The `self.payload.constraints.soft.get(name, default)` — note the non-zero
defaults 5/7/6/3 of the source. -/
def softWeight (p : GenerationPayload) (name : String) (default : Int) : Int :=
  (strFind? name p.constraints.soft).getD default

/-- The `_add_instructor_preference_penalties`: per instructor with preferences,
one scaled-×10 penalty per variable on a non-preferred day, then one per
variable whose slot start lies in no preferred time range. -/
def instructorPreferencePenalties (p : GenerationPayload) (vars : List VarKey)
    (slots : List Nat) (w : Int) : List PenaltyTerm :=
  (instructorsDict p).flatMap fun ie =>
    match ie.2.preferences with
    | none => []
    | some prefs =>
        if prefs.preferredDays.isEmpty && prefs.preferredTimes.isEmpty then []
        else
          (if prefs.preferredDays.isEmpty then []
           else vars.filterMap fun k =>
             if decide (k.instructor = ie.2.id) &&
                 !(prefs.preferredDays.contains k.day) then
               some (PenaltyTerm.boolEq k (w * 10))
             else none) ++
          (if prefs.preferredTimes.isEmpty then []
           else vars.filterMap fun k =>
             if decide (k.instructor = ie.2.id) then
               if slotStartAvailable prefs.preferredTimes (slots.getD k.slot 0)
               then none
               else some (PenaltyTerm.boolEq k (w * 10))
             else none)

/-- The variables of one student group at one `(day, slot)` coordinate - the
`slot_vars`/`middle_vars`/`later_vars` lists of
`_add_schedule_compactness_penalties`. -/
def groupVarsAtSlot (p : GenerationPayload) (vars : List VarKey) (gId : Int)
    (d : Day) (i : Nat) : List VarKey :=
  vars.filter fun k =>
    decide (k.group = gId) && decide (k.day = d) && decide (k.slot = i)

/-- The `_add_schedule_compactness_penalties` body for one group, day and slot
triple `(i, i+1, i+2)`. -/
def scheduleCompactnessPenalties (p : GenerationPayload) (vars : List VarKey)
    (slots : List Nat) (w : Int) : List PenaltyTerm :=
  (groupsDict p).flatMap fun ge =>
    weekdays.flatMap fun d =>
      (List.range (slots.length - 2)).flatMap fun slotIdx =>
        if (groupVarsAtSlot p vars ge.2.id d slotIdx).isEmpty ||
            (groupVarsAtSlot p vars ge.2.id d (slotIdx + 2)).isEmpty then []
        else
          (groupVarsAtSlot p vars ge.2.id d slotIdx).flatMap fun sv =>
            (groupVarsAtSlot p vars ge.2.id d (slotIdx + 2)).map fun ev =>
              PenaltyTerm.gapInd sv ev
                (groupVarsAtSlot p vars ge.2.id d (slotIdx + 1)) (w * 10)

/-- The per-day variable lists behind the daily-count aux vars of
`_add_balanced_load_penalties`: one entry per day having at least one
variable of the instructor. -/
def instructorDayVars (p : GenerationPayload) (vars : List VarKey)
    (iId : Int) : List (List VarKey) :=
  weekdays.filterMap fun d =>
    if (vars.filter fun k =>
        decide (k.instructor = iId) && decide (k.day = d)).isEmpty then none
    else some (vars.filter fun k =>
        decide (k.instructor = iId) && decide (k.day = d))

/-- The `_add_balanced_load_penalties` proper: one scaled-×2 absolute-difference
penalty per ordered pair of days with variables. -/
def balancedLoadPenalties (p : GenerationPayload) (vars : List VarKey)
    (w : Int) : List PenaltyTerm :=
  (instructorsDict p).flatMap fun ie =>
    if (instructorDayVars p vars ie.2.id).length ≤ 1 then []
    else
      (List.range (instructorDayVars p vars ie.2.id).length).flatMap fun i =>
        (List.range
            (instructorDayVars p vars ie.2.id).length).filterMap fun j =>
          if i < j then
            some (PenaltyTerm.absDiff
              ((instructorDayVars p vars ie.2.id).getD i [])
              ((instructorDayVars p vars ie.2.id).getD j []) (w * 2))
          else none

/-- The `room.capacity > group.size * 1.5` — `capacity` and `size` are ints and
`size * 1.5` is exact in binary floating point for the sizes at hand, so the
comparison is the integer test `2 · capacity > 3 · size`. -/
def roomOversized (capacity size : Int) : Bool :=
  decide (2 * capacity > 3 * size)

/-- The `course.room_type and room.type != course.room_type` — such keys are
skipped by `_add_room_preference_penalties` (blocked by the hard constraint
anyway); otherwise an oversized room draws a scaled-×5 penalty and
`self.groups[g_id]` raises `KeyError` on an unknown group id. -/
def roomMismatch (c : CourseInput) (room : RoomInput) : Bool :=
  match c.room_type with
  | some rt => decide (rt ≠ room.type)
  | none => false

/-- Inner loop of `_add_room_preference_penalties` for one course over the
variables, left to right. -/
def roomPreferencePenaltiesFor (p : GenerationPayload) (c : CourseInput)
    (w : Int) : List VarKey → Except String (List PenaltyTerm)
  | [] => Except.ok []
  | k :: rest =>
      if decide (k.course = c.id) then do
        let room ← findE (roomsDict p) k.room
        if roomMismatch c room then roomPreferencePenaltiesFor p c w rest
        else do
          let grp ← findE (groupsDict p) k.group
          let t ← roomPreferencePenaltiesFor p c w rest
          if roomOversized room.capacity grp.size then
            pure (PenaltyTerm.boolEq k (w * 5) :: t)
          else pure t
      else roomPreferencePenaltiesFor p c w rest

/-- The `_add_room_preference_penalties`: outer loop over the courses dict. -/
def roomPreferencePenalties (p : GenerationPayload) (vars : List VarKey)
    (w : Int) : Except String (List PenaltyTerm) :=
  (coursesDict p).foldr
    (fun ce acc => do
      let ts ← roomPreferencePenaltiesFor p ce.2 w vars
      let rest ← acc
      pure (ts ++ rest))
    (Except.ok [])

/-- The `add_soft_constraints`: each of the four rules is gated by its weight
(defaults 5/7/6/3) being strictly positive. -/
def add_soft_constraints (p : GenerationPayload) (vars : List VarKey)
    (slots : List Nat) : Except String (List PenaltyTerm) := do
  let prefWeight := softWeight p "instructorPreferencesWeight" 5
  let compactWeight := softWeight p "compactSchedulesWeight" 7
  let balancedWeight := softWeight p "balancedDailyLoadWeight" 6
  let roomWeight := softWeight p "preferredRoomsWeight" 3
  let t1 := if prefWeight > 0 then
      instructorPreferencePenalties p vars slots prefWeight else []
  let t2 := if compactWeight > 0 then
      scheduleCompactnessPenalties p vars slots compactWeight else []
  let t3 := if balancedWeight > 0 then
      balancedLoadPenalties p vars balancedWeight else []
  let t4 ← gatedE (roomWeight > 0)
      (roomPreferencePenalties p vars roomWeight)
  pure (t1 ++ t2 ++ t3 ++ t4)

/-! ### Solution extraction and fitness -/

/-- The `extract_solution`: every decision variable whose solved value is 1 yields
one assignment; `end_time = slot_start + course.duration`. -/
def extract_solution (p : GenerationPayload) (slots : List Nat)
    (vars : List VarKey) (x : VarKey → Bool) : List AssignmentOutput :=
  vars.filterMap fun k =>
    if x k then
      let start := slots.getD k.slot 0
      some { course_id := k.course, instructor_id := k.instructor,
             room_id := k.room, group_id := k.group, day := k.day,
             start_time := start, end_time := start + durationOf p k.course }
    else none

/-- The `_calculate_fitness_score`: `0.0` with no penalty terms, otherwise
`objective / Σ weights · 100` (the guard `max_possible_penalty > 0` of the
source retained). -/
def calculate_fitness_score (terms : List PenaltyTerm) (objective : Int) :
    Rat :=
  if terms.isEmpty then 0
  else
    let maxPossible := (terms.map termWeight).sum
    if maxPossible > 0 then (objective : Rat) / (maxPossible : Rat) * 100
    else 0

/-! ### Post-hoc soft-violation report (`_identify_violations`) -/

/-- Stable insertion into a list sorted by start time (equal keys keep their
original relative order, like Python's stable sort). -/
def insertByStart (a : AssignmentOutput) : List AssignmentOutput →
    List AssignmentOutput
  | [] => [a]
  | b :: l => if a.start_time ≤ b.start_time then a :: b :: l
      else b :: insertByStart a l

/-- The `day_assignments.sort(key=lambda a: minutes(a.start_time))` — a stable
sort; stable sorting is uniquely determined, so insertion sort matches. -/
def sortByStart : List AssignmentOutput → List AssignmentOutput
  | [] => []
  | a :: l => insertByStart a (sortByStart l)

/-- The `_check_instructor_preference_violations` for one assignment. -/
def preferenceViolationsFor (inst : InstructorInput) (a : AssignmentOutput) :
    List ViolationDetail :=
  match inst.preferences with
  | none => []
  | some prefs =>
      (if !prefs.preferredDays.isEmpty &&
          !(prefs.preferredDays.contains a.day) then
        [{ constraint_type := "instructor_day_preference", severity := "soft",
           description := "Instructor " ++ inst.name ++
             " assigned on non-preferred day",
           affected_assignments := [a.course_id] }]
      else []) ++
      (if !prefs.preferredTimes.isEmpty &&
          !(slotStartAvailable prefs.preferredTimes a.start_time) then
        [{ constraint_type := "instructor_time_preference", severity := "soft",
           description := "Instructor " ++ inst.name ++
             " assigned outside preferred times",
           affected_assignments := [a.course_id] }]
      else [])

/-- The `_check_instructor_preference_violations`:
`self.instructors[assignment.instructor_id]` may raise `KeyError`. -/
def checkInstructorPreferenceViolations (p : GenerationPayload) :
    List AssignmentOutput → Except String (List ViolationDetail)
  | [] => Except.ok []
  | a :: rest => do
      let inst ← findE (instructorsDict p) a.instructor_id
      let tail ← checkInstructorPreferenceViolations p rest
      pure (preferenceViolationsFor inst a ++ tail)

/-- Gaps over 60 minutes between consecutive sorted assignments of one
group-day bucket. -/
def gapViolations (gname : String) : List AssignmentOutput →
    List ViolationDetail
  | a :: b :: rest =>
      (if b.start_time - a.end_time > 60 ∧ a.end_time ≤ b.start_time then
        [{ constraint_type := "schedule_compactness", severity := "soft",
           description := "Group " ++ gname ++ " has gap",
           affected_assignments := [a.course_id, b.course_id] }]
      else []) ++ gapViolations gname (b :: rest)
  | _ => []

/-- The `_check_compactness_violations`: per group and day, sort that bucket by
start time and report every gap `next_start - current_end > 60`.  (The
source's `gap_minutes` is a Python int that can be negative for overlapping
assignments; the `a.end_time ≤ b.start_time` conjunct makes the Nat
subtraction agree with it.) -/
def checkCompactnessViolations (p : GenerationPayload)
    (assignments : List AssignmentOutput) : List ViolationDetail :=
  (groupsDict p).flatMap fun ge =>
    weekdays.flatMap fun d =>
      let dayAssignments := assignments.filter fun a =>
        decide (a.group_id = ge.2.id) && decide (a.day = d)
      if dayAssignments.length < 2 then []
      else gapViolations ge.2.name (sortByStart dayAssignments)

/-- The `_check_balanced_load_violations`: per instructor, the five daily counts;
skip when all zero; report when the population variance exceeds 2.0 (float
arithmetic modelled by exact rationals). -/
def checkBalancedLoadViolations (p : GenerationPayload)
    (assignments : List AssignmentOutput) : List ViolationDetail :=
  (instructorsDict p).flatMap fun ie =>
    let counts := weekdays.map fun d =>
      (assignments.filter fun a =>
        decide (a.instructor_id = ie.2.id) && decide (a.day = d)).length
    if counts.all (· == 0) then []
    else
      let avg : Rat := ((counts.map fun c => (c : Rat)).sum) / (counts.length : Rat)
      let variance : Rat :=
        ((counts.map fun c => ((c : Rat) - avg) ^ 2).sum) / (counts.length : Rat)
      if variance > 2 then
        [{ constraint_type := "balanced_daily_load", severity := "soft",
           description := "Instructor " ++ ie.2.name ++ " has unbalanced load",
           affected_assignments := [] }]
      else []

/-- The `_check_room_preference_violations`: oversized room per assignment;
`self.rooms[...]`/`self.groups[...]` may raise `KeyError`. -/
def checkRoomPreferenceViolations (p : GenerationPayload) :
    List AssignmentOutput → Except String (List ViolationDetail)
  | [] => Except.ok []
  | a :: rest => do
      let room ← findE (roomsDict p) a.room_id
      let grp ← findE (groupsDict p) a.group_id
      let tail ← checkRoomPreferenceViolations p rest
      if roomOversized room.capacity grp.size then
        pure ({ constraint_type := "room_preference", severity := "soft",
                description := "Room " ++ room.name ++ " oversized for group "
                  ++ grp.name,
                affected_assignments := [a.course_id] } :: tail)
      else pure tail

/-- The `_identify_violations`: concatenation of the four post-hoc soft checks. -/
def identify_violations (p : GenerationPayload)
    (assignments : List AssignmentOutput) :
    Except String (List ViolationDetail) := do
  let v1 ← checkInstructorPreferenceViolations p assignments
  let v2 := checkCompactnessViolations p assignments
  let v3 := checkBalancedLoadViolations p assignments
  let v4 ← checkRoomPreferenceViolations p assignments
  pure (v1 ++ v2 ++ v3 ++ v4)

/-! ### Infeasibility analyzer (`_analyze_infeasibility`) -/

/-- Inner loop of the analyzer's capacity heuristic over one course's group
ids, left to right. -/
def mapFlatECapacity (p : GenerationPayload) : List Int →
    Except String (List String)
  | [] => Except.ok []
  | gId :: rest => do
      let grp ← findE (groupsDict p) gId
      let tail ← mapFlatECapacity p rest
      if (roomsDict p).any (fun re => re.2.capacity ≥ grp.size) then
        pure tail
      else
        pure (("No room with sufficient capacity for group " ++ grp.name)
          :: tail)

/-- Capacity issues: for every course and each of its group ids, report when
no room has sufficient capacity; `self.groups[group_id]` may raise. -/
def capacityIssues (p : GenerationPayload) :
    List (Int × CourseInput) → Except String (List String)
  | [] => Except.ok []
  | ce :: rest => do
      let mine ← mapFlatECapacity p ce.2.group_ids
      let tail ← capacityIssues p rest
      pure (mine ++ tail)

/-- Weekly availability of an instructor in whole hours:
`Σ (range_end - range_start) // 60` over the five weekdays. -/
def availableHours (inst : InstructorInput) : Nat :=
  (weekdays.map fun d =>
    ((availabilityOn inst d).map fun r => (r.2 - r.1) / 60).sum).sum

/-- The `_analyze_infeasibility`: up to three issues joined by `"; "`. -/
def analyze_infeasibility (p : GenerationPayload) (slots : List Nat) :
    Except String String := do
  let totalSlots := slots.length * weekdays.length
  let i1 := if (coursesDict p).length > (roomsDict p).length * totalSlots then
      ["Not enough room-time slots for the courses"] else []
  let i2 ← capacityIssues p (coursesDict p)
  let i3 := (coursesDict p).flatMap fun ce =>
    match ce.2.room_type with
    | some rt =>
        if (roomsDict p).any (fun re => re.2.type == rt) then []
        else ["No room of type '" ++ rt ++ "' for course " ++ ce.2.code]
    | none => []
  let i4 := (instructorsDict p).flatMap fun ie =>
    let requiredHours :=
      ((coursesDict p).filter fun ce =>
        ce.2.instructor_ids.contains ie.2.id).foldl
        (fun acc ce => acc + ce.2.duration) 0 / 60
    if requiredHours > availableHours ie.2 then
      ["Instructor " ++ ie.2.name ++ " lacks availability"] else []
  let issues := i1 ++ i2 ++ i3 ++ i4
  if issues.isEmpty then
    pure "Hard constraints cannot be satisfied - try relaxing some constraints"
  else
    pure (String.intercalate "; " (issues.take 3))

/-! ### Solver abstraction and `optimize_timetable` -/

/-- CP-SAT termination statuses interpreted by `_handle_solver_status`. -/
inductive CpStatus where
  | optimal | feasible | infeasible | modelInvalid | unknown
deriving DecidableEq, Repr

/-- The finished model handed to `solver.Solve`. -/
structure CpModelE where
  slots : List Nat
  vars : List VarKey
  constraints : List CpConstraint
  terms : List PenaltyTerm
deriving Repr

/-- A valuation satisfies every emitted hard constraint. -/
def modelSat (m : CpModelE) (x : VarKey → Bool) : Bool :=
  m.constraints.all (constraintHolds x)

/-- What one run of the external CP-SAT search reports: a status, the solved
values of the decision variables and of the penalty variables (in emission
order), and the `NumBooleans()` statistic used for the UNKNOWN message. -/
structure CpOutcome where
  status : CpStatus
  x : VarKey → Bool
  vals : List Nat
  numBooleans : Nat

/-- The CP-SAT soundness contract: OPTIMAL/FEASIBLE outcomes carry a valuation
satisfying the model and consistent penalty values; INFEASIBLE is reported
only for genuinely unsatisfiable models. -/
def SolverOk (m : CpModelE) (o : CpOutcome) : Prop :=
  ((o.status = CpStatus.optimal ∨ o.status = CpStatus.feasible) →
    modelSat m o.x = true ∧ validVals m.terms o.x o.vals = true) ∧
  (o.status = CpStatus.infeasible → ∀ x, modelSat m x = false)

/-- Model building: `TimetableOptimizer(payload)` then
`create_decision_variables`, `add_hard_constraints`, `add_soft_constraints`,
`set_objective`; any Python exception becomes an `Except.error`. -/
def buildModel (p : GenerationPayload) : Except String CpModelE := do
  let slots ← generate_time_slots p
  let vars := varKeys p slots
  let cs ← add_hard_constraints p vars slots
  let ts ← add_soft_constraints p vars slots
  pure { slots := slots, vars := vars, constraints := cs, terms := ts }

/-- The status dispatch of `optimize_timetable` and `_handle_solver_status`
after one solver run: OPTIMAL/FEASIBLE extract the solution, fitness and
post-hoc violations; INFEASIBLE runs the analyzer; MODEL_INVALID and UNKNOWN
report failure with their messages. -/
def interpretOutcome (p : GenerationPayload) (m : CpModelE) (o : CpOutcome) :
    Except String TimetableResult :=
  match o.status with
  | CpStatus.optimal => do
      let viols ← identify_violations p
        (extract_solution p m.slots m.vars o.x)
      pure { success := true,
             assignments := extract_solution p m.slots m.vars o.x,
             fitness_score := some (calculate_fitness_score m.terms
               (objectiveValue m.terms o.vals)),
             violations := viols,
             message := "Optimal solution found" }
  | CpStatus.feasible => do
      let viols ← identify_violations p
        (extract_solution p m.slots m.vars o.x)
      pure { success := true,
             assignments := extract_solution p m.slots m.vars o.x,
             fitness_score := some (calculate_fitness_score m.terms
               (objectiveValue m.terms o.vals)),
             violations := viols,
             message := "Feasible solution found (not proven optimal)" }
  | CpStatus.infeasible => do
      let info ← analyze_infeasibility p m.slots
      pure { success := false, assignments := [], fitness_score := none,
             violations := [], message := "No feasible solution: " ++ info }
  | CpStatus.modelInvalid =>
      pure { success := false, assignments := [], fitness_score := none,
             violations := [],
             message := "Model is invalid - check constraint definitions" }
  | CpStatus.unknown =>
      pure { success := false, assignments := [], fitness_score := none,
             violations := [],
             message := if o.numBooleans > 0 then
                 "Timeout reached - try relaxing constraints or increasing time limit"
               else "Unable to solve - problem may be too complex" }

/-- The `try/except` wrapper of `optimize_timetable`: any exception of the
engine is caught and converted to a `success=false` result. -/
def runCatch (e : Except String TimetableResult) : TimetableResult :=
  match e with
  | Except.ok r => r
  | Except.error s =>
      { success := false, assignments := [], fitness_score := none,
        violations := [], message := "Optimization failed: " ++ s }

/-- The `optimize_timetable`: build the model, run the solver, interpret the
status; every exception escaping the engine is caught and converted to
`success=false` with an `"Optimization failed: "` message. -/
def optimize_timetable (p : GenerationPayload)
    (solve : CpModelE → CpOutcome) : TimetableResult :=
  runCatch (buildModel p >>= fun m => interpretOutcome p m (solve m))

/-! ### Stand-alone validator (`validator.py`) -/

/-- The `_times_overlap`: two `[start, end)` ranges overlap iff
`start1 < end2 and start2 < end1` in minute arithmetic. -/
def times_overlap (start1 end1 start2 end2 : Nat) : Bool :=
  decide (start1 < end2) && decide (start2 < end1)

/-- First-occurrence key order of a Python dict built by appending. -/
def dedupFirst [DecidableEq κ] (l : List κ) : List κ :=
  l.foldl (fun acc k => if k ∈ acc then acc else acc ++ [k]) []

/-- All ordered pairs `(l[i], l[j])` with `i < j` — the double loop of the
pairwise conflict checks. -/
def pairsOf : List α → List (α × α)
  | [] => []
  | a :: l => (l.map (fun b => (a, b))) ++ pairsOf l

/-- Bucket the assignments by a resource-day key (a Python
`dict[key] -> list`, keys in first-occurrence order, each bucket in input
order) and enumerate every in-bucket ordered pair. -/
def conflictPairs (keyf : AssignmentOutput → Int × Day)
    (assignments : List AssignmentOutput) :
    List (AssignmentOutput × AssignmentOutput) :=
  (dedupFirst (assignments.map keyf)).flatMap fun kk =>
    pairsOf (assignments.filter fun a => decide (keyf a = kk))

/-- Left-to-right flat-mapping through `Except`, raising at the first failing
element, as a Python `for` loop appending to a result list does. -/
def mapFlatE (f : α → Except String (List β)) : List α →
    Except String (List β)
  | [] => Except.ok []
  | a :: l => do
      let b ← f a
      let rest ← mapFlatE f l
      pure (b ++ rest)

/-- The `room_conflict` violation reported for one overlapping pair. -/
def roomConflictViolation (room : RoomInput) (c1 c2 : CourseInput)
    (a1 a2 : AssignmentOutput) : ViolationDetail :=
  { constraint_type := "room_conflict", severity := "hard",
    description := "Room " ++ room.name ++ " double-booked: " ++
      c1.code ++ " conflicts with " ++ c2.code,
    affected_assignments := [a1.course_id, a2.course_id] }

/-- The `check_room_conflicts`: for each overlapping same-room same-day pair, look
up the room and the two courses (a `KeyError` propagates) and report a
`room_conflict` naming both course ids. -/
def check_room_conflicts (p : GenerationPayload)
    (assignments : List AssignmentOutput) :
    Except String (List ViolationDetail) :=
  mapFlatE
    (fun pr =>
      if times_overlap pr.1.start_time pr.1.end_time pr.2.start_time
          pr.2.end_time then do
        let room ← findE (roomsDict p) pr.1.room_id
        let c1 ← findE (coursesDict p) pr.1.course_id
        let c2 ← findE (coursesDict p) pr.2.course_id
        pure [roomConflictViolation room c1 c2 pr.1 pr.2]
      else pure [])
    (conflictPairs (fun a => (a.room_id, a.day)) assignments)

/-- The `check_instructor_conflicts`: same pairwise scheme keyed by
`(instructor_id, day)`. -/
def check_instructor_conflicts (p : GenerationPayload)
    (assignments : List AssignmentOutput) :
    Except String (List ViolationDetail) :=
  mapFlatE
    (fun pr =>
      if times_overlap pr.1.start_time pr.1.end_time pr.2.start_time
          pr.2.end_time then do
        let inst ← findE (instructorsDict p) pr.1.instructor_id
        let c1 ← findE (coursesDict p) pr.1.course_id
        let c2 ← findE (coursesDict p) pr.2.course_id
        pure [{ constraint_type := "instructor_conflict", severity := "hard",
                description := "Instructor " ++ inst.name ++
                  " double-booked: " ++ c1.code ++ " conflicts with " ++
                  c2.code,
                affected_assignments := [pr.1.course_id, pr.2.course_id] }]
      else pure [])
    (conflictPairs (fun a => (a.instructor_id, a.day)) assignments)

/-- The `check_group_conflicts`: same pairwise scheme keyed by
`(group_id, day)`. -/
def check_group_conflicts (p : GenerationPayload)
    (assignments : List AssignmentOutput) :
    Except String (List ViolationDetail) :=
  mapFlatE
    (fun pr =>
      if times_overlap pr.1.start_time pr.1.end_time pr.2.start_time
          pr.2.end_time then do
        let grp ← findE (groupsDict p) pr.1.group_id
        let c1 ← findE (coursesDict p) pr.1.course_id
        let c2 ← findE (coursesDict p) pr.2.course_id
        pure [{ constraint_type := "group_conflict", severity := "hard",
                description := "Student group " ++ grp.name ++
                  " double-booked: " ++ c1.code ++ " conflicts with " ++
                  c2.code,
                affected_assignments := [pr.1.course_id, pr.2.course_id] }]
      else pure [])
    (conflictPairs (fun a => (a.group_id, a.day)) assignments)

/-- The `check_room_capacity_constraints`: per assignment, look up room and group
(`KeyError` propagates) and report when `group.size > room.capacity`. -/
def check_room_capacity_constraints (p : GenerationPayload) :
    List AssignmentOutput → Except String (List ViolationDetail)
  | [] => Except.ok []
  | a :: rest => do
      let room ← findE (roomsDict p) a.room_id
      let grp ← findE (groupsDict p) a.group_id
      if grp.size > room.capacity then do
        let course ← findE (coursesDict p) a.course_id
        let tail ← check_room_capacity_constraints p rest
        pure ({ constraint_type := "room_capacity", severity := "hard",
                description := "Room " ++ room.name ++ " insufficient for " ++
                  grp.name ++ " in course " ++ course.code,
                affected_assignments := [a.course_id] } :: tail)
      else do
        let tail ← check_room_capacity_constraints p rest
        pure tail

/-- The `check_room_type_constraints`: per assignment, look up course and room and
report when the required type differs from the room's. -/
def check_room_type_constraints (p : GenerationPayload) :
    List AssignmentOutput → Except String (List ViolationDetail)
  | [] => Except.ok []
  | a :: rest => do
      let course ← findE (coursesDict p) a.course_id
      let room ← findE (roomsDict p) a.room_id
      let tail ← check_room_type_constraints p rest
      if roomMismatch course room then
        pure ({ constraint_type := "room_type", severity := "hard",
                description := "Course " ++ course.code ++
                  " requires room type '" ++ course.room_type.getD "" ++ "'",
                affected_assignments := [a.course_id] } :: tail)
      else pure tail

/-- The `check_instructor_availability`: a day with no ranges is a violation;
otherwise the assignment's `[start, end)` must be FULLY contained in some
range (`range_start <= start and end <= range_end`). -/
def check_instructor_availability (p : GenerationPayload) :
    List AssignmentOutput → Except String (List ViolationDetail)
  | [] => Except.ok []
  | a :: rest => do
      let inst ← findE (instructorsDict p) a.instructor_id
      let ranges := availabilityOn inst a.day
      if ranges.isEmpty then do
        let course ← findE (coursesDict p) a.course_id
        let tail ← check_instructor_availability p rest
        pure ({ constraint_type := "instructor_availability",
                severity := "hard",
                description := "Instructor " ++ inst.name ++
                  " not available on the day of course " ++ course.code,
                affected_assignments := [a.course_id] } :: tail)
      else
        if ranges.any (fun r =>
            decide (r.1 ≤ a.start_time) && decide (a.end_time ≤ r.2)) then do
          let tail ← check_instructor_availability p rest
          pure tail
        else do
          let course ← findE (coursesDict p) a.course_id
          let tail ← check_instructor_availability p rest
          pure ({ constraint_type := "instructor_availability",
                  severity := "hard",
                  description := "Instructor " ++ inst.name ++
                    " not available for course " ++ course.code,
                  affected_assignments := [a.course_id] } :: tail)

/-- The `check_working_hours`: report every assignment starting before
`working_hours_start` or ending after `working_hours_end`. -/
def check_working_hours (p : GenerationPayload) :
    List AssignmentOutput → Except String (List ViolationDetail)
  | [] => Except.ok []
  | a :: rest => do
      if decide (a.start_time < p.constraints.working_hours_start) ||
          decide (a.end_time > p.constraints.working_hours_end) then do
        let course ← findE (coursesDict p) a.course_id
        let tail ← check_working_hours p rest
        pure ({ constraint_type := "working_hours", severity := "hard",
                description := "Course " ++ course.code ++
                  " scheduled outside working hours",
                affected_assignments := [a.course_id] } :: tail)
      else do
        let tail ← check_working_hours p rest
        pure tail

/-- The `validate_all`: run the seven hard checks in order, concatenate their
conflicts; `is_valid ⇔ no conflicts`. -/
def validate_all (p : GenerationPayload)
    (assignments : List AssignmentOutput) :
    Except String (Bool × List ViolationDetail) := do
  let c1 ← check_room_conflicts p assignments
  let c2 ← check_instructor_conflicts p assignments
  let c3 ← check_group_conflicts p assignments
  let c4 ← check_room_capacity_constraints p assignments
  let c5 ← check_room_type_constraints p assignments
  let c6 ← check_instructor_availability p assignments
  let c7 ← check_working_hours p assignments
  let conflicts := c1 ++ c2 ++ c3 ++ c4 ++ c5 ++ c6 ++ c7
  pure (conflicts.isEmpty, conflicts)

/-- The `validate_timetable`: builds the validator, sets the assignments and runs
`validate_all`; an exception is logged and re-raised, so it propagates. -/
def validate_timetable (p : GenerationPayload)
    (assignments : List AssignmentOutput) :
    Except String (Bool × List ViolationDetail) :=
  validate_all p assignments

/-! ### Concrete instances used by counterexamples and witnesses -/

/-- Soft-weight dict setting every recognized weight to 0 (used to isolate the
hard-constraint behaviour). -/
def zeroSoft : List (String × Int) :=
  [("instructorPreferencesWeight", 0), ("compactSchedulesWeight", 0),
   ("balancedDailyLoadWeight", 0), ("preferredRoomsWeight", 0)]

/-- Payload with a 60-minute course (id 1) and a 121-minute course (id 2) in
an 08:00–10:00 window: course 2 fits in no slot, so it gets no decision
variable. -/
def pNoVarCourse : GenerationPayload :=
  { courses :=
      [{ id := 1, code := "A", title := "", duration := 60, department := "",
         room_type := none, instructor_ids := [1], group_ids := [1] },
       { id := 2, code := "B", title := "", duration := 121, department := "",
         room_type := none, instructor_ids := [1], group_ids := [1] }],
    instructors :=
      [{ id := 1, name := "I", department := "", teaching_load := 10,
         availability := [(Day.monday, [(480, 600)])], preferences := none }],
    rooms := [{ id := 1, name := "R", capacity := 30, type := "L",
                equipment := none }],
    groups := [{ id := 1, name := "G", size := 30, course_ids := [1, 2] }],
    constraints := { hard := [], soft := zeroSoft,
                     working_hours_start := 480, working_hours_end := 600 },
    time_limit_seconds := 10 }

/-- Valuation scheduling course 1 on Monday 08:00 and nothing else. -/
def xNoVarCourse : VarKey → Bool := fun k =>
  k == { course := 1, day := Day.monday, slot := 0, room := 1,
         instructor := 1, group := 1 }

/-- Payload with one 90-minute course whose instructor is available only
Monday 09:00–10:00, working window 09:00–10:30: the single slot starts at
09:00 inside the availability range but the course runs to 10:30, past it. -/
def pAvailOverrun : GenerationPayload :=
  { courses :=
      [{ id := 1, code := "A", title := "", duration := 90, department := "",
         room_type := none, instructor_ids := [1], group_ids := [1] }],
    instructors :=
      [{ id := 1, name := "I", department := "", teaching_load := 10,
         availability := [(Day.monday, [(540, 600)])], preferences := none }],
    rooms := [{ id := 1, name := "R", capacity := 30, type := "L",
                equipment := none }],
    groups := [{ id := 1, name := "G", size := 10, course_ids := [1] }],
    constraints := { hard := [], soft := zeroSoft,
                     working_hours_start := 540, working_hours_end := 630 },
    time_limit_seconds := 10 }

/-- Valuation scheduling the course on Monday at the 09:00 slot. -/
def xAvailOverrun : VarKey → Bool := fun k =>
  k == { course := 1, day := Day.monday, slot := 0, room := 1,
         instructor := 1, group := 1 }

/-- Payload with one 90-minute course in an 08:00–11:00 window: the grid step
is 90 minutes and there are two slots (08:00 and 09:30). -/
def pOcc : GenerationPayload :=
  { courses :=
      [{ id := 1, code := "A", title := "", duration := 90, department := "",
         room_type := none, instructor_ids := [1], group_ids := [1] }],
    instructors :=
      [{ id := 1, name := "I", department := "", teaching_load := 10,
         availability := [(Day.monday, [(480, 660)])], preferences := none }],
    rooms := [{ id := 1, name := "R", capacity := 30, type := "L",
                equipment := none }],
    groups := [{ id := 1, name := "G", size := 10, course_ids := [1] }],
    constraints := { hard := [], soft := zeroSoft,
                     working_hours_start := 480, working_hours_end := 660 },
    time_limit_seconds := 10 }

/-- The decision variable of `pOcc` at Monday slot 0. -/
def kOcc : VarKey :=
  { course := 1, day := Day.monday, slot := 0, room := 1, instructor := 1,
    group := 1 }

/-- Payload with three 2-minute courses (distinct groups), one instructor
available only Monday 08:00–08:06, window 08:00–08:06 (three slots), and only
the balanced-daily-load soft rule active (weight 1). -/
def pUnbalanced : GenerationPayload :=
  { courses :=
      [{ id := 1, code := "A", title := "", duration := 2, department := "",
         room_type := none, instructor_ids := [1], group_ids := [1] },
       { id := 2, code := "B", title := "", duration := 2, department := "",
         room_type := none, instructor_ids := [1], group_ids := [2] },
       { id := 3, code := "C", title := "", duration := 2, department := "",
         room_type := none, instructor_ids := [1], group_ids := [3] }],
    instructors :=
      [{ id := 1, name := "I", department := "", teaching_load := 10,
         availability := [(Day.monday, [(480, 486)])], preferences := none }],
    rooms := [{ id := 1, name := "R", capacity := 10, type := "L",
                equipment := none }],
    groups :=
      [{ id := 1, name := "G1", size := 10, course_ids := [1] },
       { id := 2, name := "G2", size := 10, course_ids := [2] },
       { id := 3, name := "G3", size := 10, course_ids := [3] }],
    constraints :=
      { hard := [],
        soft := [("instructorPreferencesWeight", 0),
                 ("compactSchedulesWeight", 0),
                 ("balancedDailyLoadWeight", 1),
                 ("preferredRoomsWeight", 0)],
        working_hours_start := 480, working_hours_end := 486 },
    time_limit_seconds := 10 }

/-- Valuation packing the three courses into Monday's three slots. -/
def xUnbalanced : VarKey → Bool := fun k =>
  k == { course := 1, day := Day.monday, slot := 0, room := 1,
         instructor := 1, group := 1 } ||
  k == { course := 2, day := Day.monday, slot := 1, room := 1,
         instructor := 1, group := 2 } ||
  k == { course := 3, day := Day.monday, slot := 2, room := 1,
         instructor := 1, group := 3 }

/-- The forced penalty-variable values for `pUnbalanced` under `xUnbalanced`:
the ten ordered day pairs in emission order, `|3 - 0| = 3` for the four pairs
involving Monday. -/
def valsUnbalanced : List Nat := [3, 3, 3, 3, 0, 0, 0, 0, 0, 0]

/-- Payload with an empty soft-weight dict and an instructor who prefers
Tuesdays, so the instructor-preference rule (default weight 5) emits terms. -/
def pDefaultSoft : GenerationPayload :=
  { courses :=
      [{ id := 1, code := "A", title := "", duration := 60, department := "",
         room_type := none, instructor_ids := [1], group_ids := [1] }],
    instructors :=
      [{ id := 1, name := "I", department := "", teaching_load := 10,
         availability := [(Day.monday, [(480, 540)])],
         preferences := some { preferredDays := [Day.tuesday],
                               preferredTimes := [] } }],
    rooms := [{ id := 1, name := "R", capacity := 10, type := "L",
                equipment := none }],
    groups := [{ id := 1, name := "G", size := 10, course_ids := [1] }],
    constraints := { hard := [], soft := [],
                     working_hours_start := 480, working_hours_end := 540 },
    time_limit_seconds := 10 }

/-- Payload whose single 200-minute course exceeds the 08:00–09:00 window, so
the time grid is empty. -/
def pEmptyGrid : GenerationPayload :=
  { courses :=
      [{ id := 1, code := "A", title := "", duration := 200, department := "",
         room_type := none, instructor_ids := [1], group_ids := [1] }],
    instructors :=
      [{ id := 1, name := "I", department := "", teaching_load := 10,
         availability := [(Day.monday, [(480, 540)])], preferences := none }],
    rooms := [{ id := 1, name := "R", capacity := 30, type := "L",
                equipment := none }],
    groups := [{ id := 1, name := "G", size := 10, course_ids := [1] }],
    constraints := { hard := [], soft := zeroSoft,
                     working_hours_start := 480, working_hours_end := 540 },
    time_limit_seconds := 10 }

/-- A solver run reporting OPTIMAL with the all-false valuation (what CP-SAT
does on a model with no variables and no constraints). -/
def oEmptyGrid : CpOutcome :=
  { status := CpStatus.optimal, x := fun _ => false, vals := [],
    numBooleans := 0 }

/-- Payload for the validator scenarios: two 90-minute courses, one room, one
instructor available Monday 08:00–12:00, groups of 30 in a 50-seat room,
window 08:00–12:00. -/
def pValidator : GenerationPayload :=
  { courses :=
      [{ id := 1, code := "A", title := "", duration := 90, department := "",
         room_type := none, instructor_ids := [1], group_ids := [1] },
       { id := 2, code := "B", title := "", duration := 90, department := "",
         room_type := none, instructor_ids := [1], group_ids := [2] }],
    instructors :=
      [{ id := 1, name := "I", department := "", teaching_load := 10,
         availability := [(Day.monday, [(480, 720)])], preferences := none }],
    rooms := [{ id := 1, name := "R", capacity := 50, type := "L",
                equipment := none }],
    groups :=
      [{ id := 1, name := "G1", size := 30, course_ids := [1] },
       { id := 2, name := "G2", size := 30, course_ids := [2] }],
    constraints := { hard := [], soft := zeroSoft,
                     working_hours_start := 480, working_hours_end := 720 },
    time_limit_seconds := 10 }

/-- S4: same room, Monday, 09:00–10:30 and 09:30–11:00. -/
def aOverlap1 : AssignmentOutput :=
  { course_id := 1, instructor_id := 1, room_id := 1, group_id := 1,
    day := Day.monday, start_time := 540, end_time := 630 }

/-- Second S4 assignment. -/
def aOverlap2 : AssignmentOutput :=
  { course_id := 2, instructor_id := 1, room_id := 1, group_id := 2,
    day := Day.monday, start_time := 570, end_time := 660 }

/-- An assignment referencing the unknown course id 99. -/
def aBadCourse : AssignmentOutput :=
  { course_id := 99, instructor_id := 1, room_id := 1, group_id := 1,
    day := Day.monday, start_time := 540, end_time := 630 }

/-- Payload with no courses at all (`min()` raises in the engine). -/
def pNoCourses : GenerationPayload :=
  { courses := [],
    instructors :=
      [{ id := 1, name := "I", department := "", teaching_load := 10,
         availability := [(Day.monday, [(480, 540)])], preferences := none }],
    rooms := [{ id := 1, name := "R", capacity := 30, type := "L",
                equipment := none }],
    groups := [{ id := 1, name := "G", size := 10, course_ids := [] }],
    constraints := { hard := [], soft := zeroSoft,
                     working_hours_start := 480, working_hours_end := 540 },
    time_limit_seconds := 10 }

/-! ### Generic helpers and lemmas -/

set_option maxRecDepth 8000

deriving instance DecidableEq for Except

/-- Run a boolean check on the success value of an `Except` computation
(false on an exception). -/
def onOkB (e : Except String α) (q : α → Bool) : Bool :=
  match e with
  | Except.ok a => q a
  | Except.error _ => false

/-- The conflict list of a validator run (empty on an exception). -/
def confsOf (e : Except String (Bool × List ViolationDetail)) :
    List ViolationDetail :=
  match e with
  | Except.ok r => r.2
  | Except.error _ => []

theorem ok_bind {a : α} {f : α → Except String β} :
    (Except.ok a >>= f) = f a := rfl

theorem error_bind {e : String} {f : α → Except String β} :
    ((Except.error e : Except String α) >>= f) = Except.error e := rfl

theorem bind_ok_inv {e : Except String α} {f : α → Except String β} {b : β}
    (h : (e >>= f) = Except.ok b) : ∃ a, e = Except.ok a ∧ f a = Except.ok b := by
  cases e with
  | ok a => exact ⟨a, rfl, h⟩
  | error msg => rw [error_bind] at h; cases h

theorem flatMap_nil_of_forall {l : List α} {f : α → List β}
    (h : ∀ a ∈ l, f a = []) : l.flatMap f = [] := by
  induction l with
  | nil => rfl
  | cons a t ih =>
      rw [List.flatMap_cons, h a (List.mem_cons_self a t),
        ih fun x hx => h x (List.mem_cons_of_mem a hx)]
      rfl

theorem mem_pairsOf {a b : α} {l : List α}
    (h : [a, b].Sublist l) : (a, b) ∈ pairsOf l := by
  induction l with
  | nil => cases h
  | cons c t ih =>
      cases h with
      | cons _ h' => exact List.mem_append_right _ (ih h')
      | cons₂ _ h' =>
          exact List.mem_append_left _
            (List.mem_map.mpr ⟨b, h'.subset (List.mem_cons_self b []), rfl⟩)

theorem pairsOf_mem {ab : α × α} {l : List α}
    (h : ab ∈ pairsOf l) : [ab.1, ab.2].Sublist l := by
  induction l with
  | nil => cases h
  | cons c t ih =>
      rcases List.mem_append.mp h with hl | hr
      · obtain ⟨b, hb, he⟩ := List.mem_map.mp hl
        subst he
        exact List.Sublist.cons₂ c (List.singleton_sublist.mpr hb)
      · exact List.Sublist.cons c (ih hr)

theorem mem_foldl_dedup [DecidableEq κ] (l : List κ) (acc : List κ) (x : κ) :
    x ∈ l.foldl (fun acc k => if k ∈ acc then acc else acc ++ [k]) acc ↔
      x ∈ acc ∨ x ∈ l := by
  induction l generalizing acc with
  | nil => simp
  | cons a t ih =>
      rw [List.foldl_cons]
      by_cases h : a ∈ acc
      · rw [if_pos h, ih]
        constructor
        · rintro (hx | hx)
          · exact Or.inl hx
          · exact Or.inr (List.mem_cons_of_mem a hx)
        · rintro (hx | hx)
          · exact Or.inl hx
          · rcases List.mem_cons.mp hx with rfl | hx
            · exact Or.inl h
            · exact Or.inr hx
      · rw [if_neg h, ih]
        constructor
        · rintro (hx | hx)
          · rcases List.mem_append.mp hx with hx | hx
            · exact Or.inl hx
            · rcases List.mem_singleton.mp hx with rfl
              exact Or.inr (List.mem_cons_self x t)
          · exact Or.inr (List.mem_cons_of_mem a hx)
        · rintro (hx | hx)
          · exact Or.inl (List.mem_append_left _ hx)
          · rcases List.mem_cons.mp hx with rfl | hx
            · exact Or.inl (List.mem_append_right _ (List.mem_singleton.mpr rfl))
            · exact Or.inr hx

theorem mem_dedupFirst [DecidableEq κ] {l : List κ} {x : κ} :
    x ∈ dedupFirst l ↔ x ∈ l := by
  unfold dedupFirst
  rw [mem_foldl_dedup]
  simp

theorem mapFlatE_ok_of_forall {f : α → Except String (List β)} {l : List α}
    (h : ∀ a ∈ l, ∃ b, f a = Except.ok b) :
    ∃ r, mapFlatE f l = Except.ok r := by
  induction l with
  | nil => exact ⟨[], rfl⟩
  | cons a t ih =>
      obtain ⟨b, hb⟩ := h a (List.mem_cons_self a t)
      obtain ⟨r, hr⟩ := ih fun x hx => h x (List.mem_cons_of_mem a hx)
      refine ⟨b ++ r, ?_⟩
      rw [mapFlatE, hb, ok_bind, hr, ok_bind]
      rfl

theorem mapFlatE_ok_mem {f : α → Except String (List β)} {l : List α}
    {r : List β} (h : mapFlatE f l = Except.ok r) {a : α} (ha : a ∈ l) :
    ∃ b, f a = Except.ok b ∧ ∀ v ∈ b, v ∈ r := by
  induction l generalizing r with
  | nil => cases ha
  | cons c t ih =>
      rw [mapFlatE] at h
      obtain ⟨b, hb, h⟩ := bind_ok_inv h
      obtain ⟨rest, hrest, h⟩ := bind_ok_inv h
      cases h
      rcases List.mem_cons.mp ha with rfl | ha
      · exact ⟨b, hb, fun v hv => List.mem_append_left _ hv⟩
      · obtain ⟨b', hb', hsub⟩ := ih hrest ha
        exact ⟨b', hb', fun v hv => List.mem_append_right _ (hsub v hv)⟩

theorem mapFlatE_ok_sub {f : α → Except String (List β)} {l : List α}
    {r : List β} (h : mapFlatE f l = Except.ok r) {v : β} (hv : v ∈ r) :
    ∃ a, a ∈ l ∧ ∃ b, f a = Except.ok b ∧ v ∈ b := by
  induction l generalizing r with
  | nil => cases h; cases hv
  | cons c t ih =>
      rw [mapFlatE] at h
      obtain ⟨b, hb, h⟩ := bind_ok_inv h
      obtain ⟨rest, hrest, h⟩ := bind_ok_inv h
      cases h
      rcases List.mem_append.mp hv with hvb | hvr
      · exact ⟨c, List.mem_cons_self c t, b, hb, hvb⟩
      · obtain ⟨a, hal, b', hb', hvb'⟩ := ih hrest hvr
        exact ⟨a, List.mem_cons_of_mem c hal, b', hb', hvb'⟩

theorem mapFlatE_all_nil {f : α → Except String (List β)} {l : List α}
    (h : ∀ a ∈ l, f a = Except.ok []) : mapFlatE f l = Except.ok [] := by
  induction l with
  | nil => rfl
  | cons a t ih =>
      rw [mapFlatE, h a (List.mem_cons_self a t), ok_bind,
        ih fun x hx => h x (List.mem_cons_of_mem a hx), ok_bind]
      rfl

theorem validate_all_ok_inv {p : GenerationPayload} {A : List AssignmentOutput}
    {b : Bool} {confs : List ViolationDetail}
    (h : validate_all p A = Except.ok (b, confs)) :
    ∃ c1 c2 c3 c4 c5 c6 c7,
      check_room_conflicts p A = Except.ok c1 ∧
      check_instructor_conflicts p A = Except.ok c2 ∧
      check_group_conflicts p A = Except.ok c3 ∧
      check_room_capacity_constraints p A = Except.ok c4 ∧
      check_room_type_constraints p A = Except.ok c5 ∧
      check_instructor_availability p A = Except.ok c6 ∧
      check_working_hours p A = Except.ok c7 ∧
      confs = c1 ++ c2 ++ c3 ++ c4 ++ c5 ++ c6 ++ c7 ∧
      b = confs.isEmpty := by
  unfold validate_all at h
  obtain ⟨c1, h1, h⟩ := bind_ok_inv h
  obtain ⟨c2, h2, h⟩ := bind_ok_inv h
  obtain ⟨c3, h3, h⟩ := bind_ok_inv h
  obtain ⟨c4, h4, h⟩ := bind_ok_inv h
  obtain ⟨c5, h5, h⟩ := bind_ok_inv h
  obtain ⟨c6, h6, h⟩ := bind_ok_inv h
  obtain ⟨c7, h7, h⟩ := bind_ok_inv h
  refine ⟨c1, c2, c3, c4, c5, c6, c7, h1, h2, h3, h4, h5, h6, h7, ?_, ?_⟩
  · cases h; rfl
  · cases h; rfl

theorem buildModel_ok_inv {p : GenerationPayload} {m : CpModelE}
    (h : buildModel p = Except.ok m) :
    generate_time_slots p = Except.ok m.slots ∧
    m.vars = varKeys p m.slots ∧
    add_hard_constraints p m.vars m.slots = Except.ok m.constraints ∧
    add_soft_constraints p m.vars m.slots = Except.ok m.terms := by
  unfold buildModel at h
  obtain ⟨slots, hs, h⟩ := bind_ok_inv h
  obtain ⟨cs, hcs, h⟩ := bind_ok_inv h
  obtain ⟨ts, hts, h⟩ := bind_ok_inv h
  cases h
  exact ⟨hs, rfl, hcs, hts⟩

theorem add_hard_ok_inv {p : GenerationPayload} {vars : List VarKey}
    {slots : List Nat} {cs : List CpConstraint}
    (h : add_hard_constraints p vars slots = Except.ok cs) :
    ∃ c5 c6,
      gatedE (hardEnabled p "roomCapacityCheck")
        (roomCapacityConstraints p vars) = Except.ok c5 ∧
      gatedE (hardEnabled p "roomTypeMatch")
        (roomTypeConstraints p vars) = Except.ok c6 ∧
      cs = courseAssignmentConstraints p vars ++
        (if hardEnabled p "noRoomDoubleBooking" then
          roomConflictConstraints p vars slots else []) ++
        (if hardEnabled p "noInstructorDoubleBooking" then
          instructorConflictConstraints p vars slots else []) ++
        groupConflictConstraints p vars slots ++ c5 ++ c6 ++
        instructorAvailabilityConstraints p vars slots := by
  unfold add_hard_constraints at h
  obtain ⟨c5, h5, h⟩ := bind_ok_inv h
  obtain ⟨c6, h6, h⟩ := bind_ok_inv h
  cases h
  exact ⟨c5, c6, h5, h6, by simp⟩

theorem add_soft_ok_inv {p : GenerationPayload} {vars : List VarKey}
    {slots : List Nat} {ts : List PenaltyTerm}
    (h : add_soft_constraints p vars slots = Except.ok ts) :
    ∃ t4,
      gatedE (softWeight p "preferredRoomsWeight" 3 > 0)
        (roomPreferencePenalties p vars
          (softWeight p "preferredRoomsWeight" 3)) = Except.ok t4 ∧
      ts = (if softWeight p "instructorPreferencesWeight" 5 > 0 then
          instructorPreferencePenalties p vars slots
            (softWeight p "instructorPreferencesWeight" 5) else []) ++
        (if softWeight p "compactSchedulesWeight" 7 > 0 then
          scheduleCompactnessPenalties p vars slots
            (softWeight p "compactSchedulesWeight" 7) else []) ++
        (if softWeight p "balancedDailyLoadWeight" 6 > 0 then
          balancedLoadPenalties p vars
            (softWeight p "balancedDailyLoadWeight" 6) else []) ++ t4 := by
  unfold add_soft_constraints at h
  obtain ⟨t4, h4, h⟩ := bind_ok_inv h
  cases h
  exact ⟨t4, h4, by simp⟩

theorem interpretOutcome_ok_inv {p : GenerationPayload} {m : CpModelE}
    {o : CpOutcome} {r : TimetableResult}
    (h : interpretOutcome p m o = Except.ok r) (hs : r.success = true) :
    (o.status = CpStatus.optimal ∨ o.status = CpStatus.feasible) ∧
    r.assignments = extract_solution p m.slots m.vars o.x := by
  unfold interpretOutcome at h
  cases hstat : o.status
  all_goals rw [hstat] at h
  case optimal =>
      obtain ⟨v, hv, h⟩ := bind_ok_inv h
      cases h
      exact ⟨Or.inl rfl, rfl⟩
  case feasible =>
      obtain ⟨v, hv, h⟩ := bind_ok_inv h
      cases h
      exact ⟨Or.inr rfl, rfl⟩
  case infeasible =>
      obtain ⟨s, hs2, h⟩ := bind_ok_inv h
      cases h
      exact absurd hs (by simp)
  case modelInvalid =>
      cases h
      exact absurd hs (by simp)
  case unknown =>
      cases h
      exact absurd hs (by simp)

theorem optimize_success_inv {p : GenerationPayload}
    {solve : CpModelE → CpOutcome} {m : CpModelE}
    (hm : buildModel p = Except.ok m)
    (hsucc : (optimize_timetable p solve).success = true) :
    ((solve m).status = CpStatus.optimal ∨
      (solve m).status = CpStatus.feasible) ∧
    (optimize_timetable p solve).assignments =
      extract_solution p m.slots m.vars (solve m).x := by
  unfold optimize_timetable at hsucc ⊢
  rw [hm, ok_bind] at hsucc ⊢
  cases hio : interpretOutcome p m (solve m) with
  | error e =>
      rw [hio] at hsucc
      exact absurd hsucc (by simp [runCatch])
  | ok r =>
      rw [hio] at hsucc
      have hr : r.success = true := hsucc
      obtain ⟨h1, h2⟩ := interpretOutcome_ok_inv hio hr
      exact ⟨h1, h2⟩

theorem extract_solution_countP (p : GenerationPayload) (slots : List Nat)
    (vars : List VarKey) (x : VarKey → Bool) (cid : Int) :
    (extract_solution p slots vars x).countP
        (fun a => decide (a.course_id = cid)) =
      vars.countP (fun k => x k && decide (k.course = cid)) := by
  induction vars with
  | nil => rfl
  | cons k t ih =>
      by_cases hx : x k
      · unfold extract_solution at ih ⊢
        rw [List.filterMap_cons, if_pos hx, List.countP_cons, ih,
          List.countP_cons]
        simp [hx]
      · unfold extract_solution at ih ⊢
        rw [List.filterMap_cons, if_neg hx, ih, List.countP_cons]
        simp [hx]

theorem modelSat_constraint {m : CpModelE} {x : VarKey → Bool}
    (hsat : modelSat m x = true) {c : CpConstraint}
    (hc : c ∈ m.constraints) : constraintHolds x c = true :=
  List.all_eq_true.mp hsat c hc

theorem course_constraint_mem {p : GenerationPayload} {vars : List VarKey}
    {ce : Int × CourseInput} (hce : ce ∈ coursesDict p)
    (hne : (varsForCourse vars ce.2.id).isEmpty = false) :
    CpConstraint.exactlyOne (varsForCourse vars ce.2.id) ∈
      courseAssignmentConstraints p vars := by
  unfold courseAssignmentConstraints
  refine List.mem_flatMap.mpr ⟨ce, hce, ?_⟩
  simp [hne]

theorem sat_course_count {p : GenerationPayload} {m : CpModelE}
    {x : VarKey → Bool} (hm : buildModel p = Except.ok m)
    (hsat : modelSat m x = true) {ce : Int × CourseInput}
    (hce : ce ∈ coursesDict p)
    (hne : (varsForCourse m.vars ce.2.id).isEmpty = false) :
    m.vars.countP (fun k => x k && decide (k.course = ce.2.id)) = 1 := by
  obtain ⟨-, -, hhard, -⟩ := buildModel_ok_inv hm
  obtain ⟨c5, c6, -, -, hcs⟩ := add_hard_ok_inv hhard
  have hmem : CpConstraint.exactlyOne (varsForCourse m.vars ce.2.id) ∈
      m.constraints := by
    rw [hcs]
    exact List.mem_append_left _ (List.mem_append_left _
      (List.mem_append_left _ (List.mem_append_left _ (List.mem_append_left _
        (List.mem_append_left _ (course_constraint_mem hce hne))))))
  have hh := modelSat_constraint hsat hmem
  simp only [constraintHolds, countTrue] at hh
  have h1 : (varsForCourse m.vars ce.2.id).countP x = 1 := by
    simpa using hh
  rw [← h1]
  unfold varsForCourse
  rw [List.countP_filter]

/-- A solver run for `pNoVarCourse` reporting OPTIMAL with `xNoVarCourse`. -/
def solveNoVar : CpModelE → CpOutcome := fun _ =>
  { status := CpStatus.optimal, x := xNoVarCourse, vals := [],
    numBooleans := 0 }

/-! ### Claim theorems -/

/-- C1 counterexample: on `pNoVarCourse` the 121-minute course 2 fits in no
slot, so it has no decision variable and `_add_course_assignment_constraint`
skips it (`if course_vars:`); the valuation `xNoVarCourse` satisfies every
emitted hard constraint, the solver outcome is consistent, `optimize` reports
`success=true`, yet course id 2 — an id of `payload.courses` — appears zero
times among the returned assignments, not exactly once. -/
theorem c1_counterexample :
    pNoVarCourse.courses.map (fun c => c.id) = [1, 2] ∧
    onOkB (buildModel pNoVarCourse) (fun m =>
      modelSat m xNoVarCourse && validVals m.terms xNoVarCourse [] &&
      (varsForCourse m.vars 2).isEmpty &&
      !(m.constraints.contains
        (CpConstraint.exactlyOne (varsForCourse m.vars 2)))) = true ∧
    (optimize_timetable pNoVarCourse solveNoVar).success = true ∧
    ((optimize_timetable pNoVarCourse solveNoVar).assignments.countP
      (fun a => decide (a.course_id = 2))) = 0 :=
  ⟨rfl, by decide, by decide, by decide⟩

/-- C1 amended: on `success=true`, a course id appears exactly once among the
returned assignments when the course has at least one decision variable; a
course with no decision variable gets no exactly-one constraint and appears
zero times. -/
theorem c1_course_coverage (p : GenerationPayload)
    (solve : CpModelE → CpOutcome) (m : CpModelE)
    (hm : buildModel p = Except.ok m)
    (hsound : SolverOk m (solve m))
    (hsucc : (optimize_timetable p solve).success = true)
    (ce : Int × CourseInput) (hce : ce ∈ coursesDict p) :
    ((varsForCourse m.vars ce.2.id).isEmpty = false →
      ((optimize_timetable p solve).assignments.countP
        (fun a => decide (a.course_id = ce.2.id))) = 1) ∧
    ((varsForCourse m.vars ce.2.id).isEmpty = true →
      ((optimize_timetable p solve).assignments.countP
        (fun a => decide (a.course_id = ce.2.id))) = 0) := by
  obtain ⟨hstat, hassign⟩ := optimize_success_inv hm hsucc
  have hsat : modelSat m (solve m).x = true := (hsound.1 hstat).1
  constructor
  · intro hne
    rw [hassign, extract_solution_countP]
    exact sat_course_count hm hsat hce hne
  · intro hemp
    rw [hassign, extract_solution_countP]
    have hz : (varsForCourse m.vars ce.2.id).countP (solve m).x = 0 := by
      rw [List.isEmpty_iff.mp hemp]
      rfl
    unfold varsForCourse at hz
    rw [List.countP_filter] at hz
    exact hz

/-- C1 witness: the amended theorem applied to `pNoVarCourse` — course 1 has
variables and appears exactly once, course 2 has none and appears zero
times. -/
theorem c1_course_coverage_witness :
    ((optimize_timetable pNoVarCourse solveNoVar).assignments.countP
      (fun a => decide (a.course_id = 1))) = 1 ∧
    ((optimize_timetable pNoVarCourse solveNoVar).assignments.countP
      (fun a => decide (a.course_id = 2))) = 0 := by
  have hok : (buildModel pNoVarCourse).isOk = true := by decide
  cases hm : buildModel pNoVarCourse with
  | error e => rw [hm] at hok; cases hok
  | ok m =>
      have hsound : SolverOk m (solveNoVar m) := by
        constructor
        · intro _
          have hd : onOkB (buildModel pNoVarCourse) (fun m =>
              modelSat m xNoVarCourse && validVals m.terms xNoVarCourse []) =
                true := by decide
          rw [hm] at hd
          simp only [onOkB, Bool.and_eq_true] at hd
          exact hd
        · intro habs
          cases habs
      have hsucc : (optimize_timetable pNoVarCourse solveNoVar).success =
          true := by decide
      have h1 : ((1 : Int),
          ({ id := 1, code := "A", title := "", duration := 60,
             department := "", room_type := none, instructor_ids := [1],
             group_ids := [1] } : CourseInput)) ∈ coursesDict pNoVarCourse :=
        by decide
      have h2 : ((2 : Int),
          ({ id := 2, code := "B", title := "", duration := 121,
             department := "", room_type := none, instructor_ids := [1],
             group_ids := [1] } : CourseInput)) ∈ coursesDict pNoVarCourse :=
        by decide
      have hne : onOkB (buildModel pNoVarCourse) (fun m =>
          !(varsForCourse m.vars 1).isEmpty &&
            (varsForCourse m.vars 2).isEmpty) = true := by decide
      rw [hm] at hne
      simp only [onOkB, Bool.and_eq_true, Bool.not_eq_true'] at hne
      constructor
      · exact (c1_course_coverage pNoVarCourse solveNoVar m hm hsound hsucc
          _ h1).1 hne.1
      · exact (c1_course_coverage pNoVarCourse solveNoVar m hm hsound hsucc
          _ h2).2 hne.2

/-- C9: with an empty course list, `min()` raises inside
`_generate_time_slots`, the exception is caught by the entry point's
`try/except`, and the result is `success=false`, no assignments, a null
fitness and a message beginning `"Optimization failed: "`. -/
theorem c9_empty_courses (p : GenerationPayload)
    (solve : CpModelE → CpOutcome) (hc : p.courses = []) :
    (optimize_timetable p solve).success = false ∧
    (optimize_timetable p solve).assignments = [] ∧
    (optimize_timetable p solve).fitness_score = none ∧
    (optimize_timetable p solve).message =
      "Optimization failed: " ++ "min() arg is an empty sequence" := by
  have hb : buildModel p = Except.error "min() arg is an empty sequence" := by
    unfold buildModel generate_time_slots minCourseDuration coursesDict
      buildDict
    rw [hc]
    rfl
  unfold optimize_timetable
  rw [hb, error_bind]
  exact ⟨rfl, rfl, rfl, rfl⟩

/-- C9 witness: the theorem applied to the concrete course-free payload. -/
theorem c9_empty_courses_witness :
    (optimize_timetable pNoCourses (fun _ => oEmptyGrid)).success = false ∧
    (optimize_timetable pNoCourses (fun _ => oEmptyGrid)).assignments = [] ∧
    (optimize_timetable pNoCourses (fun _ => oEmptyGrid)).fitness_score =
      none ∧
    (optimize_timetable pNoCourses (fun _ => oEmptyGrid)).message =
      "Optimization failed: " ++ "min() arg is an empty sequence" :=
  c9_empty_courses pNoCourses (fun _ => oEmptyGrid) rfl

/-- C10: validating an empty assignment list yields `is_valid=true` with an
empty conflict list, and each of the seven hard checks returns no
violations. -/
theorem c10_empty_assignments_valid (p : GenerationPayload) :
    validate_timetable p [] = Except.ok (true, []) ∧
    check_room_conflicts p [] = Except.ok [] ∧
    check_instructor_conflicts p [] = Except.ok [] ∧
    check_group_conflicts p [] = Except.ok [] ∧
    check_room_capacity_constraints p [] = Except.ok [] ∧
    check_room_type_constraints p [] = Except.ok [] ∧
    check_instructor_availability p [] = Except.ok [] ∧
    check_working_hours p [] = Except.ok [] :=
  ⟨rfl, rfl, rfl, rfl, rfl, rfl, rfl, rfl⟩

/-- C10 witness: the theorem applied to the concrete validator payload. -/
theorem c10_empty_assignments_valid_witness :
    validate_timetable pValidator [] = Except.ok (true, []) :=
  (c10_empty_assignments_valid pValidator).1

/-- A solver run for `pAvailOverrun` reporting OPTIMAL with
`xAvailOverrun`. -/
def solveAvailOverrun : CpModelE → CpOutcome := fun _ =>
  { status := CpStatus.optimal, x := xAvailOverrun, vals := [],
    numBooleans := 0 }

/-- C2 evaluated at the failing input: `xAvailOverrun` satisfies every hard
constraint (the optimizer's availability check only requires
`range_start ≤ slot_start < range_end` on the START minute, and
540 ∈ [540, 600)), so `optimize` succeeds with the 09:00–10:30 assignment;
the validator demands full containment of `[540, 630)` in an availability
range, finds none, and returns `is_valid=false` with an
`instructor_availability` conflict — not `is_valid=true` as claimed. -/
theorem c2_availability_overrun :
    onOkB (buildModel pAvailOverrun) (fun m =>
      modelSat m xAvailOverrun && validVals m.terms xAvailOverrun []) =
        true ∧
    (optimize_timetable pAvailOverrun solveAvailOverrun).success = true ∧
    (optimize_timetable pAvailOverrun solveAvailOverrun).assignments =
      [{ course_id := 1, instructor_id := 1, room_id := 1, group_id := 1,
         day := Day.monday, start_time := 540, end_time := 630 }] ∧
    validate_timetable pAvailOverrun
      [{ course_id := 1, instructor_id := 1, room_id := 1, group_id := 1,
         day := Day.monday, start_time := 540, end_time := 630 }] =
      Except.ok (false,
        [{ constraint_type := "instructor_availability", severity := "hard",
           description := "Instructor I not available for course A",
           affected_assignments := [1] }]) :=
  ⟨by decide, by decide, by decide, by decide⟩

/-- The occupancy span the claim (and the spec) prescribe: a course starting
at slot `s` with duration `dur` occupies `{s, …, s + ⌈dur/step⌉ − 1}` where
`step` is the slot length in minutes. -/
def claimedOccupiesSlot (step dur s slotK : Nat) : Bool :=
  decide (s ≤ slotK) && decide (slotK < s + (dur + step - 1) / step)

/-- C3 evaluated at the failing input: on `pOcc` the step is 90 minutes, yet
the source computes the span as `⌈90 / 2⌉ = 45` slots — the divisor
`len(self.time_slots[0])` is the length of the `(start, end)` tuple, 2 — so
the slot-0 variable is summed into the room/instructor/group constraints at
coordinate slot 1, while the claimed set `{0, …, ⌈90/90⌉ − 1} = {0}` excludes
slot 1. -/
theorem c3_occupancy_divisor_bug :
    minCourseDuration pOcc = some 90 ∧
    generate_time_slots pOcc = Except.ok [480, 570] ∧
    courseDurationSlots 90 = 45 ∧
    onOkB (buildModel pOcc) (fun m =>
      (roomConflictVarsAt pOcc m.vars 1 Day.monday 1).contains kOcc &&
      (instructorConflictVarsAt pOcc m.vars 1 Day.monday 1).contains kOcc &&
      (groupConflictVarsAt pOcc m.vars 1 Day.monday 1).contains kOcc) =
        true ∧
    occupiesSlot pOcc kOcc 1 = true ∧
    claimedOccupiesSlot 90 90 kOcc.slot 1 = false :=
  ⟨by decide, by decide, by decide, by decide, by decide, by decide⟩

/-- C5 counterexample: `pDefaultSoft` has an empty soft dict, yet
`soft.get('instructorPreferencesWeight', 5)` yields 5 — not 0 — so the
instructor-preference rule stays enabled and emits penalty terms. -/
theorem c5_counterexample :
    pDefaultSoft.constraints.soft = [] ∧
    strFind? "instructorPreferencesWeight"
      pDefaultSoft.constraints.soft = none ∧
    softWeight pDefaultSoft "instructorPreferencesWeight" 5 = 5 ∧
    onOkB (buildModel pDefaultSoft) (fun m =>
      !((instructorPreferencePenalties pDefaultSoft m.vars m.slots
        (softWeight pDefaultSoft "instructorPreferencesWeight" 5)).isEmpty) &&
      !(m.terms.isEmpty)) = true :=
  ⟨rfl, rfl, rfl, by decide⟩

/-- C5 amended: missing hard-rule names default to enabled (true), while the
four recognized soft-weight names default to the strictly positive weights
5, 7, 6 and 3 — not 0 — so a missing key leaves the corresponding soft rule
enabled. -/
theorem c5_defaults (p : GenerationPayload) :
    (∀ name, strFind? name p.constraints.hard = none →
      hardEnabled p name = true) ∧
    (strFind? "instructorPreferencesWeight" p.constraints.soft = none →
      softWeight p "instructorPreferencesWeight" 5 = 5 ∧
      (0 : Int) < softWeight p "instructorPreferencesWeight" 5) ∧
    (strFind? "compactSchedulesWeight" p.constraints.soft = none →
      softWeight p "compactSchedulesWeight" 7 = 7 ∧
      (0 : Int) < softWeight p "compactSchedulesWeight" 7) ∧
    (strFind? "balancedDailyLoadWeight" p.constraints.soft = none →
      softWeight p "balancedDailyLoadWeight" 6 = 6 ∧
      (0 : Int) < softWeight p "balancedDailyLoadWeight" 6) ∧
    (strFind? "preferredRoomsWeight" p.constraints.soft = none →
      softWeight p "preferredRoomsWeight" 3 = 3 ∧
      (0 : Int) < softWeight p "preferredRoomsWeight" 3) := by
  refine ⟨fun name h => ?_, fun h => ?_, fun h => ?_, fun h => ?_,
    fun h => ?_⟩ <;>
    simp [hardEnabled, softWeight, h]

/-- C5 witness: the amended theorem applied to the payload with an empty soft
dict and an empty hard dict. -/
theorem c5_defaults_witness :
    hardEnabled pDefaultSoft "noRoomDoubleBooking" = true ∧
    softWeight pDefaultSoft "instructorPreferencesWeight" 5 = 5 ∧
    softWeight pDefaultSoft "compactSchedulesWeight" 7 = 7 ∧
    softWeight pDefaultSoft "balancedDailyLoadWeight" 6 = 6 ∧
    softWeight pDefaultSoft "preferredRoomsWeight" 3 = 3 := by
  have h := c5_defaults pDefaultSoft
  exact ⟨h.1 "noRoomDoubleBooking" rfl, (h.2.1 rfl).1, (h.2.2.1 rfl).1,
    (h.2.2.2.1 rfl).1, (h.2.2.2.2 rfl).1⟩

theorem varKeys_slots_nil (p : GenerationPayload) : varKeys p [] = [] := by
  have h : enumKeys p [] = [] := by
    unfold enumKeys
    refine flatMap_nil_of_forall fun ce _ => ?_
    refine flatMap_nil_of_forall fun d _ => ?_
    simp
  unfold varKeys
  rw [h]
  rfl

theorem courseAssignmentConstraints_nil (p : GenerationPayload) :
    courseAssignmentConstraints p [] = [] := by
  unfold courseAssignmentConstraints
  exact flatMap_nil_of_forall fun ce _ => by simp [varsForCourse]

theorem roomConflictConstraints_nil (p : GenerationPayload)
    (vars : List VarKey) : roomConflictConstraints p vars [] = [] := by
  unfold roomConflictConstraints
  refine flatMap_nil_of_forall fun re _ => ?_
  refine flatMap_nil_of_forall fun d _ => ?_
  simp

theorem instructorConflictConstraints_nil (p : GenerationPayload)
    (vars : List VarKey) : instructorConflictConstraints p vars [] = [] := by
  unfold instructorConflictConstraints
  refine flatMap_nil_of_forall fun ie _ => ?_
  refine flatMap_nil_of_forall fun d _ => ?_
  simp

theorem groupConflictConstraints_nil (p : GenerationPayload)
    (vars : List VarKey) : groupConflictConstraints p vars [] = [] := by
  unfold groupConflictConstraints
  refine flatMap_nil_of_forall fun ge _ => ?_
  refine flatMap_nil_of_forall fun d _ => ?_
  simp

theorem instructorAvailabilityConstraints_nil (p : GenerationPayload) :
    instructorAvailabilityConstraints p [] [] = [] := by
  unfold instructorAvailabilityConstraints
  refine flatMap_nil_of_forall fun ie _ => ?_
  refine flatMap_nil_of_forall fun d _ => ?_
  by_cases h : (availabilityOn ie.2 d).isEmpty <;> simp [h]

theorem gatedE_nil {gate : Bool} {e : Except String (List γ)}
    (h : e = Except.ok []) : gatedE gate e = Except.ok [] := by
  unfold gatedE
  cases gate with
  | true => rw [if_pos rfl]; exact h
  | false => rfl

theorem gatedE_capacity_nil (p : GenerationPayload) (gate : Bool) :
    gatedE gate (roomCapacityConstraints p []) = Except.ok [] :=
  gatedE_nil rfl

theorem gatedE_type_nil (p : GenerationPayload) (gate : Bool) :
    gatedE gate (roomTypeConstraints p []) = Except.ok [] :=
  gatedE_nil rfl

theorem add_hard_nil (p : GenerationPayload) :
    add_hard_constraints p [] [] = Except.ok [] := by
  unfold add_hard_constraints
  simp only [courseAssignmentConstraints_nil, roomConflictConstraints_nil,
    instructorConflictConstraints_nil, groupConflictConstraints_nil,
    instructorAvailabilityConstraints_nil, gatedE_capacity_nil,
    gatedE_type_nil, ok_bind, ite_self, List.append_nil, List.nil_append]
  rfl

theorem instructorPreferencePenalties_nil (p : GenerationPayload)
    (slots : List Nat) (w : Int) :
    instructorPreferencePenalties p [] slots w = [] := by
  unfold instructorPreferencePenalties
  refine flatMap_nil_of_forall fun ie _ => ?_
  cases ie.2.preferences with
  | none => rfl
  | some prefs => simp

theorem scheduleCompactnessPenalties_nil (p : GenerationPayload)
    (vars : List VarKey) (w : Int) :
    scheduleCompactnessPenalties p vars [] w = [] := by
  unfold scheduleCompactnessPenalties
  refine flatMap_nil_of_forall fun ge _ => ?_
  refine flatMap_nil_of_forall fun d _ => ?_
  simp

theorem filterMap_const_none (l : List α) :
    l.filterMap (fun _ => (none : Option β)) = [] := by
  induction l with
  | nil => rfl
  | cons a t ih => simp [ih]

theorem instructorDayVars_nil (p : GenerationPayload) (iId : Int) :
    instructorDayVars p [] iId = [] := by
  unfold instructorDayVars
  simp [filterMap_const_none]

theorem balancedLoadPenalties_nil (p : GenerationPayload) (w : Int) :
    balancedLoadPenalties p [] w = [] := by
  unfold balancedLoadPenalties
  refine flatMap_nil_of_forall fun ie _ => ?_
  simp [instructorDayVars_nil]

theorem roomPreferencePenalties_nil (p : GenerationPayload) (w : Int) :
    roomPreferencePenalties p [] w = Except.ok [] := by
  unfold roomPreferencePenalties
  induction coursesDict p with
  | nil => rfl
  | cons ce t ih =>
      rw [List.foldr_cons,
        show roomPreferencePenaltiesFor p ce.2 w [] = Except.ok [] from rfl,
        ok_bind, ih, ok_bind]
      rfl

theorem gatedE_roomPref_nil (p : GenerationPayload) (gate : Bool)
    (w : Int) : gatedE gate (roomPreferencePenalties p [] w) =
      Except.ok [] :=
  gatedE_nil (roomPreferencePenalties_nil p w)

theorem add_soft_nil (p : GenerationPayload) :
    add_soft_constraints p [] [] = Except.ok [] := by
  unfold add_soft_constraints
  simp only [instructorPreferencePenalties_nil,
    scheduleCompactnessPenalties_nil, balancedLoadPenalties_nil,
    gatedE_roomPref_nil, ok_bind, ite_self, List.append_nil,
    List.nil_append]
  rfl

/-- C6 amended: when no course fits the window the grid is empty and the model
has no decision variables, no constraints and no penalty terms; it is
therefore satisfied by every valuation, a sound solver can never report
INFEASIBLE for it, and any extraction is empty — `optimize` does NOT declare
the problem infeasible. -/
theorem c6_empty_grid (p : GenerationPayload) (m : CpModelE)
    (hm : buildModel p = Except.ok m) (hs : m.slots = []) :
    m.vars = [] ∧ m.constraints = [] ∧ m.terms = [] ∧
    (∀ x, modelSat m x = true) ∧
    (∀ o, SolverOk m o → o.status ≠ CpStatus.infeasible) ∧
    (∀ x, extract_solution p m.slots m.vars x = []) := by
  obtain ⟨-, hvars, hhard, hsoft⟩ := buildModel_ok_inv hm
  rw [hs] at hvars hhard hsoft
  rw [varKeys_slots_nil] at hvars
  rw [hvars, add_hard_nil] at hhard
  rw [hvars, add_soft_nil] at hsoft
  have hcs : m.constraints = [] := by
    injection hhard with h
    exact h.symm
  have hts : m.terms = [] := by
    injection hsoft with h
    exact h.symm
  have hsat : ∀ x, modelSat m x = true := fun x => by
    unfold modelSat
    rw [hcs]
    rfl
  refine ⟨hvars, hcs, hts, hsat, ?_, ?_⟩
  · intro o hok heq
    have hfalse := hok.2 heq (fun _ => false)
    rw [hsat (fun _ => false)] at hfalse
    cases hfalse
  · intro x
    rw [hvars]
    rfl

/-- C6 witness: the amended theorem applied to the payload whose single
200-minute course exceeds the 08:00–09:00 window. -/
theorem c6_empty_grid_witness :
    ∃ m, buildModel pEmptyGrid = Except.ok m ∧ m.vars = [] ∧
      m.constraints = [] ∧ modelSat m (fun _ => false) = true := by
  have hok : (buildModel pEmptyGrid).isOk = true := by decide
  cases hm : buildModel pEmptyGrid with
  | error e => rw [hm] at hok; cases hok
  | ok m =>
      have hs : m.slots = [] := by
        have hd : onOkB (buildModel pEmptyGrid) (fun m => m.slots.isEmpty) =
            true := by decide
        rw [hm] at hd
        simpa [onOkB] using hd
      have h := c6_empty_grid pEmptyGrid m hm hs
      exact ⟨m, rfl, h.1, h.2.1, h.2.2.2.1 _⟩

/-- C6 counterexample: on `pEmptyGrid` the grid is empty, the model is
trivially satisfied by the all-false valuation, and a solver reporting
OPTIMAL (CP-SAT's behaviour on an empty model) makes `optimize` return
`success=true` with an empty assignment list — not `success=false`. -/
theorem c6_counterexample :
    generate_time_slots pEmptyGrid = Except.ok [] ∧
    onOkB (buildModel pEmptyGrid) (fun m =>
      modelSat m (fun _ => false) && validVals m.terms (fun _ => false) [] &&
      m.vars.isEmpty && m.constraints.isEmpty) = true ∧
    (optimize_timetable pEmptyGrid (fun _ => oEmptyGrid)).success = true ∧
    (optimize_timetable pEmptyGrid (fun _ => oEmptyGrid)).assignments = [] :=
  ⟨by decide, by decide, by decide, by decide⟩

theorem pref_term_weight {p : GenerationPayload} {vars : List VarKey}
    {slots : List Nat} {w : Int} {t : PenaltyTerm}
    (ht : t ∈ instructorPreferencePenalties p vars slots w) :
    termWeight t = w * 10 := by
  obtain ⟨ie, -, hmem⟩ := List.mem_flatMap.mp ht
  cases hp : ie.2.preferences with
  | none => simp [hp] at hmem
  | some prefs =>
      simp only [hp] at hmem
      by_cases hb : (prefs.preferredDays.isEmpty &&
          prefs.preferredTimes.isEmpty) = true
      · rw [if_pos hb] at hmem
        cases hmem
      · rw [if_neg hb] at hmem
        rcases List.mem_append.mp hmem with h | h
        · by_cases hd : prefs.preferredDays.isEmpty = true
          · rw [if_pos hd] at h
            cases h
          · rw [if_neg hd] at h
            obtain ⟨k, -, hk⟩ := List.mem_filterMap.mp h
            by_cases hc : (decide (k.instructor = ie.2.id) &&
                !prefs.preferredDays.contains k.day) = true
            · rw [if_pos hc] at hk
              injection hk with h2
              rw [← h2]
              rfl
            · rw [if_neg hc] at hk
              cases hk
        · by_cases hd : prefs.preferredTimes.isEmpty = true
          · rw [if_pos hd] at h
            cases h
          · rw [if_neg hd] at h
            obtain ⟨k, -, hk⟩ := List.mem_filterMap.mp h
            by_cases hc : decide (k.instructor = ie.2.id) = true
            · rw [if_pos hc] at hk
              by_cases ha : slotStartAvailable prefs.preferredTimes
                  (slots.getD k.slot 0) = true
              · rw [if_pos ha] at hk
                cases hk
              · rw [if_neg ha] at hk
                injection hk with h2
                rw [← h2]
                rfl
            · rw [if_neg hc] at hk
              cases hk

theorem compact_term_weight {p : GenerationPayload} {vars : List VarKey}
    {slots : List Nat} {w : Int} {t : PenaltyTerm}
    (ht : t ∈ scheduleCompactnessPenalties p vars slots w) :
    termWeight t = w * 10 := by
  obtain ⟨ge, -, h⟩ := List.mem_flatMap.mp ht
  obtain ⟨d, -, h⟩ := List.mem_flatMap.mp h
  obtain ⟨i, -, h⟩ := List.mem_flatMap.mp h
  by_cases hb : ((groupVarsAtSlot p vars ge.2.id d i).isEmpty ||
      (groupVarsAtSlot p vars ge.2.id d (i + 2)).isEmpty) = true
  · rw [if_pos hb] at h
    cases h
  · rw [if_neg hb] at h
    obtain ⟨sv, -, h⟩ := List.mem_flatMap.mp h
    obtain ⟨ev, -, h⟩ := List.mem_map.mp h
    rw [← h]
    rfl

theorem balanced_term_weight {p : GenerationPayload} {vars : List VarKey}
    {w : Int} {t : PenaltyTerm}
    (ht : t ∈ balancedLoadPenalties p vars w) : termWeight t = w * 2 := by
  obtain ⟨ie, -, h⟩ := List.mem_flatMap.mp ht
  by_cases hb : (instructorDayVars p vars ie.2.id).length ≤ 1
  · rw [if_pos hb] at h
    cases h
  · rw [if_neg hb] at h
    obtain ⟨i, -, h⟩ := List.mem_flatMap.mp h
    obtain ⟨j, -, hj⟩ := List.mem_filterMap.mp h
    by_cases hij : i < j
    · rw [if_pos hij] at hj
      injection hj with h2
      rw [← h2]
      rfl
    · rw [if_neg hij] at hj
      cases hj

theorem roomPrefFor_term_weight {p : GenerationPayload} {c : CourseInput}
    {w : Int} :
    ∀ {l : List VarKey} {ts : List PenaltyTerm},
      roomPreferencePenaltiesFor p c w l = Except.ok ts →
      ∀ t ∈ ts, termWeight t = w * 5 := by
  intro l
  induction l with
  | nil =>
      intro ts h t htm
      cases h
      cases htm
  | cons k rest ih =>
      intro ts h t htm
      unfold roomPreferencePenaltiesFor at h
      by_cases hc : decide (k.course = c.id) = true
      · rw [if_pos hc] at h
        obtain ⟨room, -, h⟩ := bind_ok_inv h
        by_cases hmis : roomMismatch c room = true
        · rw [if_pos hmis] at h
          exact ih h t htm
        · rw [if_neg hmis] at h
          obtain ⟨grp, -, h⟩ := bind_ok_inv h
          obtain ⟨tl, htl, h⟩ := bind_ok_inv h
          by_cases hov : roomOversized room.capacity grp.size = true
          · rw [if_pos hov] at h
            injection h with h2
            rw [← h2] at htm
            rcases List.mem_cons.mp htm with rfl | htm2
            · rfl
            · exact ih htl t htm2
          · rw [if_neg hov] at h
            injection h with h2
            rw [← h2] at htm
            exact ih htl t htm
      · rw [if_neg hc] at h
        exact ih h t htm

theorem roomPref_term_weight {p : GenerationPayload} {vars : List VarKey}
    {w : Int} {ts : List PenaltyTerm}
    (h : roomPreferencePenalties p vars w = Except.ok ts) :
    ∀ t ∈ ts, termWeight t = w * 5 := by
  unfold roomPreferencePenalties at h
  revert ts h
  induction coursesDict p with
  | nil =>
      intro ts h t htm
      cases h
      cases htm
  | cons ce restCs ih =>
      intro ts h t htm
      rw [List.foldr_cons] at h
      obtain ⟨ts1, hts1, h⟩ := bind_ok_inv h
      obtain ⟨ts2, hts2, h⟩ := bind_ok_inv h
      cases h
      rcases List.mem_append.mp htm with h1 | h2
      · exact roomPrefFor_term_weight hts1 t h1
      · exact ih hts2 t h2

theorem soft_term_weight_pos {p : GenerationPayload} {vars : List VarKey}
    {slots : List Nat} {ts : List PenaltyTerm}
    (h : add_soft_constraints p vars slots = Except.ok ts) :
    ∀ t ∈ ts, 0 < termWeight t := by
  obtain ⟨t4, h4, hts⟩ := add_soft_ok_inv h
  intro t htm
  rw [hts] at htm
  rcases List.mem_append.mp htm with htm | ht4
  · rcases List.mem_append.mp htm with htm | ht3
    · rcases List.mem_append.mp htm with ht1 | ht2
      · revert ht1
        split
        · intro ht1
          rw [pref_term_weight ht1]
          next hw => exact mul_pos hw (by norm_num)
        · intro ht1
          cases ht1
      · revert ht2
        split
        · intro ht2
          rw [compact_term_weight ht2]
          next hw => exact mul_pos hw (by norm_num)
        · intro ht2
          cases ht2
    · revert ht3
      split
      · intro ht3
        rw [balanced_term_weight ht3]
        next hw => exact mul_pos hw (by norm_num)
      · intro ht3
        cases ht3
  · unfold gatedE at h4
    split at h4
    · rw [roomPref_term_weight h4 t ht4]
      next hw =>
        have hw2 : (0 : Int) < softWeight p "preferredRoomsWeight" 3 := by
          exact_mod_cast of_decide_eq_true hw
        exact mul_pos hw2 (by norm_num)
    · injection h4 with h5
      rw [← h5] at ht4
      cases ht4

theorem objectiveValue_nonneg {terms : List PenaltyTerm} {vals : List Nat}
    (hw : ∀ t ∈ terms, 0 < termWeight t) :
    0 ≤ objectiveValue terms vals := by
  unfold objectiveValue
  apply List.sum_nonneg
  intro z hz
  obtain ⟨tv, htv, hzeq⟩ := List.mem_map.mp hz
  rw [← hzeq]
  have ht : tv.1 ∈ terms := (List.of_mem_zip htv).1
  exact mul_nonneg (Int.natCast_nonneg _) (le_of_lt (hw tv.1 ht))

theorem sum_weights_pos {terms : List PenaltyTerm} (hne : terms ≠ [])
    (hw : ∀ t ∈ terms, 0 < termWeight t) :
    0 < (terms.map termWeight).sum := by
  apply List.sum_pos
  · intro z hz
    obtain ⟨t, ht, hzeq⟩ := List.mem_map.mp hz
    rw [← hzeq]
    exact hw t ht
  · simp [hne]

theorem calculate_fitness_formula {terms : List PenaltyTerm} {obj : Int}
    (hne : terms ≠ []) (hpos : 0 < (terms.map termWeight).sum) :
    calculate_fitness_score terms obj =
      (obj : Rat) / (((terms.map termWeight).sum : Int) : Rat) * 100 := by
  unfold calculate_fitness_score
  rw [if_neg (by simpa [List.isEmpty_iff] using hne), if_pos hpos]

theorem calculate_fitness_nonneg {terms : List PenaltyTerm} {obj : Int}
    (hobj : 0 ≤ obj) : 0 ≤ calculate_fitness_score terms obj := by
  unfold calculate_fitness_score
  by_cases hne : terms.isEmpty = true
  · rw [if_pos hne]
  · rw [if_neg hne]
    by_cases hpos : ((terms.map termWeight).sum > 0)
    · rw [if_pos hpos]
      positivity
    · rw [if_neg hpos]

/-- C4 amended: the fitness of a solved model is
`100 · objective / Σ weights` when penalty terms were emitted (and `0` when
none), and it is always nonnegative — but it is NOT bounded by 100, because a
balanced-load difference variable can take a value above 1 while its weight
is counted once in the normalizer (see the counterexample). -/
theorem c4_fitness (p : GenerationPayload) (m : CpModelE) (x : VarKey → Bool)
    (vals : List Nat) (hm : buildModel p = Except.ok m)
    (hv : validVals m.terms x vals = true) :
    0 ≤ calculate_fitness_score m.terms (objectiveValue m.terms vals) ∧
    (m.terms = [] →
      calculate_fitness_score m.terms (objectiveValue m.terms vals) = 0) ∧
    (m.terms ≠ [] →
      calculate_fitness_score m.terms (objectiveValue m.terms vals) =
        ((objectiveValue m.terms vals : Int) : Rat) /
          (((m.terms.map termWeight).sum : Int) : Rat) * 100) := by
  obtain ⟨-, -, -, hsoft⟩ := buildModel_ok_inv hm
  have hw := soft_term_weight_pos hsoft
  refine ⟨calculate_fitness_nonneg (objectiveValue_nonneg hw), ?_, ?_⟩
  · intro hnil
    unfold calculate_fitness_score
    rw [if_pos (by simp [hnil])]
  · intro hne
    exact calculate_fitness_formula hne (sum_weights_pos hne hw)

/-- The fitness `optimize` would report for a payload whose solver returned
the penalty values `vals` (0 when the model build fails). -/
def fitnessOf (p : GenerationPayload) (vals : List Nat) : Rat :=
  match buildModel p with
  | Except.ok m =>
      calculate_fitness_score m.terms (objectiveValue m.terms vals)
  | Except.error _ => 0

/-- C4 counterexample: on `pUnbalanced` the hard constraints force all three
courses onto Monday, the four Monday day-pair difference variables take the
value 3 while each contributes weight 2 to the normalizer once, so the
objective is 24 against a weight sum of 20 and the reported fitness is
`24/20·100 = 120 > 100`. -/
theorem c4_counterexample :
    onOkB (buildModel pUnbalanced) (fun m =>
      modelSat m xUnbalanced &&
      validVals m.terms xUnbalanced valsUnbalanced &&
      !m.terms.isEmpty &&
      (objectiveValue m.terms valsUnbalanced == 24) &&
      ((m.terms.map termWeight).sum == 20)) = true ∧
    fitnessOf pUnbalanced valsUnbalanced = 120 ∧
    ¬ fitnessOf pUnbalanced valsUnbalanced ≤ 100 := by
  have hdec : onOkB (buildModel pUnbalanced) (fun m =>
      modelSat m xUnbalanced &&
      validVals m.terms xUnbalanced valsUnbalanced &&
      !m.terms.isEmpty &&
      (objectiveValue m.terms valsUnbalanced == 24) &&
      ((m.terms.map termWeight).sum == 20)) = true := by decide
  have h120 : fitnessOf pUnbalanced valsUnbalanced = 120 := by
    unfold fitnessOf
    cases hm : buildModel pUnbalanced with
    | error e => rw [hm] at hdec; cases hdec
    | ok m =>
        rw [hm] at hdec
        simp only [onOkB, Bool.and_eq_true, beq_iff_eq,
          Bool.not_eq_true'] at hdec
        obtain ⟨⟨⟨-, hemp⟩, hobj⟩, hsum⟩ := hdec
        have hne : m.terms ≠ [] := by simpa [List.isEmpty_iff] using hemp
        show calculate_fitness_score m.terms
          (objectiveValue m.terms valsUnbalanced) = 120
        rw [calculate_fitness_formula hne (by rw [hsum]; norm_num), hobj,
          hsum]
        norm_num
  refine ⟨hdec, h120, ?_⟩
  rw [h120]
  norm_num

/-- C4 witness: the amended theorem applied to the concrete unbalanced
payload, giving nonnegativity and the normalization formula there. -/
theorem c4_fitness_witness :
    0 ≤ fitnessOf pUnbalanced valsUnbalanced := by
  have hok : (buildModel pUnbalanced).isOk = true := by decide
  have hvd : onOkB (buildModel pUnbalanced) (fun m =>
      validVals m.terms xUnbalanced valsUnbalanced) = true := by decide
  unfold fitnessOf
  cases hm : buildModel pUnbalanced with
  | error e => exact le_refl 0
  | ok m =>
      rw [hm] at hvd
      show 0 ≤ calculate_fitness_score m.terms
        (objectiveValue m.terms valsUnbalanced)
      exact (c4_fitness pUnbalanced m xUnbalanced valsUnbalanced hm hvd).1

theorem findE_ok {d : List (Int × α)} {k : Int}
    (h : (dictFind? k d).isSome = true) : ∃ v, findE d k = Except.ok v := by
  unfold findE
  cases hd : dictFind? k d with
  | none => rw [hd] at h; cases h
  | some v => exact ⟨v, rfl⟩

theorem findE_isSome {d : List (Int × α)} {k : Int} {v : α}
    (h : findE d k = Except.ok v) : (dictFind? k d).isSome = true := by
  unfold findE at h
  cases hd : dictFind? k d with
  | none => rw [hd] at h; cases h
  | some w => rfl

/-- All four entity ids of an assignment resolve in the payload's dicts. -/
def assignmentResolves (p : GenerationPayload) (a : AssignmentOutput) : Bool :=
  (dictFind? a.course_id (coursesDict p)).isSome &&
  (dictFind? a.instructor_id (instructorsDict p)).isSome &&
  (dictFind? a.room_id (roomsDict p)).isSome &&
  (dictFind? a.group_id (groupsDict p)).isSome

theorem conflictPairs_mem {keyf : AssignmentOutput → Int × Day}
    {A : List AssignmentOutput} {pr : AssignmentOutput × AssignmentOutput}
    (h : pr ∈ conflictPairs keyf A) :
    [pr.1, pr.2].Sublist A ∧ keyf pr.1 = keyf pr.2 := by
  unfold conflictPairs at h
  obtain ⟨kk, -, hp⟩ := List.mem_flatMap.mp h
  have hs := pairsOf_mem hp
  refine ⟨hs.trans (List.filter_sublist A), ?_⟩
  have h1 : pr.1 ∈ A.filter (fun a => decide (keyf a = kk)) :=
    hs.subset (List.mem_cons_self _ _)
  have h2 : pr.2 ∈ A.filter (fun a => decide (keyf a = kk)) :=
    hs.subset (List.mem_cons_of_mem _ (List.mem_cons_self _ _))
  have e1 := of_decide_eq_true (List.mem_filter.mp h1).2
  have e2 := of_decide_eq_true (List.mem_filter.mp h2).2
  rw [e1, e2]

theorem mem_conflictPairs {keyf : AssignmentOutput → Int × Day}
    {A : List AssignmentOutput} {a1 a2 : AssignmentOutput}
    (hsub : [a1, a2].Sublist A) (hk : keyf a1 = keyf a2) :
    (a1, a2) ∈ conflictPairs keyf A := by
  unfold conflictPairs
  refine List.mem_flatMap.mpr ⟨keyf a1, ?_, ?_⟩
  · exact mem_dedupFirst.mpr (List.mem_map.mpr
      ⟨a1, hsub.subset (List.mem_cons_self _ _), rfl⟩)
  · apply mem_pairsOf
    have d1 : decide (keyf a1 = keyf a1) = true := decide_eq_true rfl
    have d2 : decide (keyf a2 = keyf a1) = true := decide_eq_true hk.symm
    have hfix : List.filter (fun a => decide (keyf a = keyf a1)) [a1, a2] =
        [a1, a2] := by
      rw [List.filter_cons, List.filter_cons, List.filter_nil, d1, d2]
      rfl
    rw [← hfix]
    exact hsub.filter _

theorem bind_ok_of_ok {e : Except String α} {f : α → Except String β}
    {a : α} (he : e = Except.ok a) (hf : ∃ b, f a = Except.ok b) :
    ∃ b, (e >>= f) = Except.ok b := by
  rw [he, ok_bind]
  exact hf

theorem check_room_conflicts_ok {p : GenerationPayload}
    {A : List AssignmentOutput}
    (hres : ∀ a ∈ A, assignmentResolves p a = true) :
    ∃ r, check_room_conflicts p A = Except.ok r := by
  unfold check_room_conflicts
  apply mapFlatE_ok_of_forall
  intro pr hpr
  obtain ⟨hsub, -⟩ := conflictPairs_mem hpr
  have h1 := hres pr.1 (hsub.subset (List.mem_cons_self _ _))
  have h2 := hres pr.2
    (hsub.subset (List.mem_cons_of_mem _ (List.mem_cons_self _ _)))
  unfold assignmentResolves at h1 h2
  simp only [Bool.and_eq_true] at h1 h2
  by_cases hov : times_overlap pr.1.start_time pr.1.end_time
      pr.2.start_time pr.2.end_time = true
  · rw [if_pos hov]
    obtain ⟨room, hroom⟩ := findE_ok h1.1.2
    obtain ⟨c1, hc1⟩ := findE_ok h1.1.1.1
    obtain ⟨c2, hc2⟩ := findE_ok h2.1.1.1
    exact bind_ok_of_ok hroom (bind_ok_of_ok hc1 (bind_ok_of_ok hc2 ⟨_, rfl⟩))
  · rw [if_neg hov]
    exact ⟨[], rfl⟩

theorem check_instructor_conflicts_ok {p : GenerationPayload}
    {A : List AssignmentOutput}
    (hres : ∀ a ∈ A, assignmentResolves p a = true) :
    ∃ r, check_instructor_conflicts p A = Except.ok r := by
  unfold check_instructor_conflicts
  apply mapFlatE_ok_of_forall
  intro pr hpr
  obtain ⟨hsub, -⟩ := conflictPairs_mem hpr
  have h1 := hres pr.1 (hsub.subset (List.mem_cons_self _ _))
  have h2 := hres pr.2
    (hsub.subset (List.mem_cons_of_mem _ (List.mem_cons_self _ _)))
  unfold assignmentResolves at h1 h2
  simp only [Bool.and_eq_true] at h1 h2
  by_cases hov : times_overlap pr.1.start_time pr.1.end_time
      pr.2.start_time pr.2.end_time = true
  · rw [if_pos hov]
    obtain ⟨inst, hinst⟩ := findE_ok h1.1.1.2
    obtain ⟨c1, hc1⟩ := findE_ok h1.1.1.1
    obtain ⟨c2, hc2⟩ := findE_ok h2.1.1.1
    exact bind_ok_of_ok hinst (bind_ok_of_ok hc1 (bind_ok_of_ok hc2 ⟨_, rfl⟩))
  · rw [if_neg hov]
    exact ⟨[], rfl⟩

theorem check_group_conflicts_ok {p : GenerationPayload}
    {A : List AssignmentOutput}
    (hres : ∀ a ∈ A, assignmentResolves p a = true) :
    ∃ r, check_group_conflicts p A = Except.ok r := by
  unfold check_group_conflicts
  apply mapFlatE_ok_of_forall
  intro pr hpr
  obtain ⟨hsub, -⟩ := conflictPairs_mem hpr
  have h1 := hres pr.1 (hsub.subset (List.mem_cons_self _ _))
  have h2 := hres pr.2
    (hsub.subset (List.mem_cons_of_mem _ (List.mem_cons_self _ _)))
  unfold assignmentResolves at h1 h2
  simp only [Bool.and_eq_true] at h1 h2
  by_cases hov : times_overlap pr.1.start_time pr.1.end_time
      pr.2.start_time pr.2.end_time = true
  · rw [if_pos hov]
    obtain ⟨grp, hgrp⟩ := findE_ok h1.2
    obtain ⟨c1, hc1⟩ := findE_ok h1.1.1.1
    obtain ⟨c2, hc2⟩ := findE_ok h2.1.1.1
    exact bind_ok_of_ok hgrp (bind_ok_of_ok hc1 (bind_ok_of_ok hc2 ⟨_, rfl⟩))
  · rw [if_neg hov]
    exact ⟨[], rfl⟩

theorem check_room_capacity_ok {p : GenerationPayload} :
    ∀ {A : List AssignmentOutput},
      (∀ a ∈ A, assignmentResolves p a = true) →
      ∃ r, check_room_capacity_constraints p A = Except.ok r := by
  intro A
  induction A with
  | nil => exact fun _ => ⟨[], rfl⟩
  | cons a rest ih =>
      intro hres
      have ha := hres a (List.mem_cons_self _ _)
      unfold assignmentResolves at ha
      simp only [Bool.and_eq_true] at ha
      obtain ⟨room, hroom⟩ := findE_ok ha.1.2
      obtain ⟨grp, hgrp⟩ := findE_ok ha.2
      obtain ⟨course, hcourse⟩ := findE_ok ha.1.1.1
      obtain ⟨tail, htail⟩ := ih fun b hb =>
        hres b (List.mem_cons_of_mem _ hb)
      unfold check_room_capacity_constraints
      refine bind_ok_of_ok hroom (bind_ok_of_ok hgrp ?_)
      by_cases hc : grp.size > room.capacity
      · rw [if_pos hc]
        exact bind_ok_of_ok hcourse (bind_ok_of_ok htail ⟨_, rfl⟩)
      · rw [if_neg hc]
        exact bind_ok_of_ok htail ⟨_, rfl⟩

theorem capacity_ok_resolves {p : GenerationPayload} :
    ∀ {A : List AssignmentOutput} {r : List ViolationDetail},
      check_room_capacity_constraints p A = Except.ok r →
      ∀ a ∈ A, (dictFind? a.room_id (roomsDict p)).isSome = true ∧
        (dictFind? a.group_id (groupsDict p)).isSome = true := by
  intro A
  induction A with
  | nil => intro r _ a ha; cases ha
  | cons a rest ih =>
      intro r h b hb
      unfold check_room_capacity_constraints at h
      obtain ⟨room, hroom, h⟩ := bind_ok_inv h
      obtain ⟨grp, hgrp, h⟩ := bind_ok_inv h
      rcases List.mem_cons.mp hb with rfl | hb2
      · exact ⟨findE_isSome hroom, findE_isSome hgrp⟩
      · by_cases hc : grp.size > room.capacity
        · rw [if_pos hc] at h
          obtain ⟨course, -, h⟩ := bind_ok_inv h
          obtain ⟨tail, htail, -⟩ := bind_ok_inv h
          exact ih htail b hb2
        · rw [if_neg hc] at h
          obtain ⟨tail, htail, -⟩ := bind_ok_inv h
          exact ih htail b hb2

theorem check_room_type_ok {p : GenerationPayload} :
    ∀ {A : List AssignmentOutput},
      (∀ a ∈ A, assignmentResolves p a = true) →
      ∃ r, check_room_type_constraints p A = Except.ok r := by
  intro A
  induction A with
  | nil => exact fun _ => ⟨[], rfl⟩
  | cons a rest ih =>
      intro hres
      have ha := hres a (List.mem_cons_self _ _)
      unfold assignmentResolves at ha
      simp only [Bool.and_eq_true] at ha
      obtain ⟨course, hcourse⟩ := findE_ok ha.1.1.1
      obtain ⟨room, hroom⟩ := findE_ok ha.1.2
      obtain ⟨tail, htail⟩ := ih fun b hb =>
        hres b (List.mem_cons_of_mem _ hb)
      unfold check_room_type_constraints
      refine bind_ok_of_ok hcourse (bind_ok_of_ok hroom
        (bind_ok_of_ok htail ?_))
      by_cases hmis : roomMismatch course room = true
      · rw [if_pos hmis]
        exact ⟨_, rfl⟩
      · rw [if_neg hmis]
        exact ⟨_, rfl⟩

theorem type_ok_resolves {p : GenerationPayload} :
    ∀ {A : List AssignmentOutput} {r : List ViolationDetail},
      check_room_type_constraints p A = Except.ok r →
      ∀ a ∈ A, (dictFind? a.course_id (coursesDict p)).isSome = true := by
  intro A
  induction A with
  | nil => intro r _ a ha; cases ha
  | cons a rest ih =>
      intro r h b hb
      unfold check_room_type_constraints at h
      obtain ⟨course, hcourse, h⟩ := bind_ok_inv h
      obtain ⟨room, hroom, h⟩ := bind_ok_inv h
      obtain ⟨tail, htail, -⟩ := bind_ok_inv h
      rcases List.mem_cons.mp hb with rfl | hb2
      · exact findE_isSome hcourse
      · exact ih htail b hb2

theorem check_instructor_availability_ok {p : GenerationPayload} :
    ∀ {A : List AssignmentOutput},
      (∀ a ∈ A, assignmentResolves p a = true) →
      ∃ r, check_instructor_availability p A = Except.ok r := by
  intro A
  induction A with
  | nil => exact fun _ => ⟨[], rfl⟩
  | cons a rest ih =>
      intro hres
      have ha := hres a (List.mem_cons_self _ _)
      unfold assignmentResolves at ha
      simp only [Bool.and_eq_true] at ha
      obtain ⟨inst, hinst⟩ := findE_ok ha.1.1.2
      obtain ⟨course, hcourse⟩ := findE_ok ha.1.1.1
      obtain ⟨tail, htail⟩ := ih fun b hb =>
        hres b (List.mem_cons_of_mem _ hb)
      unfold check_instructor_availability
      refine bind_ok_of_ok hinst ?_
      by_cases hemp : (availabilityOn inst a.day).isEmpty = true
      · rw [if_pos hemp]
        exact bind_ok_of_ok hcourse (bind_ok_of_ok htail ⟨_, rfl⟩)
      · rw [if_neg hemp]
        by_cases hav : ((availabilityOn inst a.day).any fun r =>
            decide (r.1 ≤ a.start_time) && decide (a.end_time ≤ r.2)) = true
        · rw [if_pos hav]
          exact bind_ok_of_ok htail ⟨_, rfl⟩
        · rw [if_neg hav]
          exact bind_ok_of_ok hcourse (bind_ok_of_ok htail ⟨_, rfl⟩)

theorem availability_ok_resolves {p : GenerationPayload} :
    ∀ {A : List AssignmentOutput} {r : List ViolationDetail},
      check_instructor_availability p A = Except.ok r →
      ∀ a ∈ A,
        (dictFind? a.instructor_id (instructorsDict p)).isSome = true := by
  intro A
  induction A with
  | nil => intro r _ a ha; cases ha
  | cons a rest ih =>
      intro r h b hb
      unfold check_instructor_availability at h
      obtain ⟨inst, hinst, h⟩ := bind_ok_inv h
      rcases List.mem_cons.mp hb with rfl | hb2
      · exact findE_isSome hinst
      · by_cases hemp : (availabilityOn inst a.day).isEmpty = true
        · rw [if_pos hemp] at h
          obtain ⟨course, -, h⟩ := bind_ok_inv h
          obtain ⟨tail, htail, -⟩ := bind_ok_inv h
          exact ih htail b hb2
        · rw [if_neg hemp] at h
          by_cases hav : ((availabilityOn inst a.day).any fun r =>
              decide (r.1 ≤ a.start_time) && decide (a.end_time ≤ r.2)) = true
          · rw [if_pos hav] at h
            obtain ⟨tail, htail, -⟩ := bind_ok_inv h
            exact ih htail b hb2
          · rw [if_neg hav] at h
            obtain ⟨course, -, h⟩ := bind_ok_inv h
            obtain ⟨tail, htail, -⟩ := bind_ok_inv h
            exact ih htail b hb2

theorem check_working_hours_ok {p : GenerationPayload} :
    ∀ {A : List AssignmentOutput},
      (∀ a ∈ A, assignmentResolves p a = true) →
      ∃ r, check_working_hours p A = Except.ok r := by
  intro A
  induction A with
  | nil => exact fun _ => ⟨[], rfl⟩
  | cons a rest ih =>
      intro hres
      have ha := hres a (List.mem_cons_self _ _)
      unfold assignmentResolves at ha
      simp only [Bool.and_eq_true] at ha
      obtain ⟨course, hcourse⟩ := findE_ok ha.1.1.1
      obtain ⟨tail, htail⟩ := ih fun b hb =>
        hres b (List.mem_cons_of_mem _ hb)
      unfold check_working_hours
      by_cases hc : (decide (a.start_time <
          p.constraints.working_hours_start) ||
          decide (a.end_time > p.constraints.working_hours_end)) = true
      · rw [if_pos hc]
        exact bind_ok_of_ok hcourse (bind_ok_of_ok htail ⟨_, rfl⟩)
      · rw [if_neg hc]
        exact bind_ok_of_ok htail ⟨_, rfl⟩

/-- C8: `validate_timetable` is exception-free exactly when every
assignment's four entity ids resolve in the payload's dicts — with all ids
resolvable every check completes and an `(is_valid, conflicts)` pair is
returned; with any id missing, some check's dict subscript raises a
`KeyError` that propagates to the caller. -/
theorem c8_lookup_safety (p : GenerationPayload)
    (A : List AssignmentOutput) :
    ((∀ a ∈ A, assignmentResolves p a = true) →
      ∃ b confs, validate_timetable p A = Except.ok (b, confs)) ∧
    ((∃ a ∈ A, assignmentResolves p a = false) →
      ∃ e, validate_timetable p A = Except.error e) := by
  constructor
  · intro hres
    obtain ⟨c1, h1⟩ := check_room_conflicts_ok hres
    obtain ⟨c2, h2⟩ := check_instructor_conflicts_ok hres
    obtain ⟨c3, h3⟩ := check_group_conflicts_ok hres
    obtain ⟨c4, h4⟩ := check_room_capacity_ok hres
    obtain ⟨c5, h5⟩ := check_room_type_ok hres
    obtain ⟨c6, h6⟩ := check_instructor_availability_ok hres
    obtain ⟨c7, h7⟩ := check_working_hours_ok hres
    refine ⟨(c1 ++ c2 ++ c3 ++ c4 ++ c5 ++ c6 ++ c7).isEmpty,
      c1 ++ c2 ++ c3 ++ c4 ++ c5 ++ c6 ++ c7, ?_⟩
    unfold validate_timetable validate_all
    rw [h1, ok_bind, h2, ok_bind, h3, ok_bind, h4, ok_bind, h5, ok_bind,
      h6, ok_bind, h7, ok_bind]
    rfl
  · rintro ⟨a, ha, hbad⟩
    cases hv : validate_timetable p A with
    | error e => exact ⟨e, rfl⟩
    | ok r =>
        exfalso
        obtain ⟨b, confs⟩ := r
        obtain ⟨c1, c2, c3, c4, c5, c6, c7, -, -, -, h4, h5, h6, -, -, -⟩ :=
          validate_all_ok_inv hv
        have hcap := capacity_ok_resolves h4 a ha
        have htyp := type_ok_resolves h5 a ha
        have hava := availability_ok_resolves h6 a ha
        unfold assignmentResolves at hbad
        rw [htyp, hava, hcap.1, hcap.2] at hbad
        cases hbad

/-- C8 witness: on the concrete validator payload, resolvable assignments
yield an ok pair and an assignment with the unknown course id 99 raises. -/
theorem c8_lookup_safety_witness :
    (∃ b confs, validate_timetable pValidator [aOverlap1] =
      Except.ok (b, confs)) ∧
    (∃ e, validate_timetable pValidator [aBadCourse] =
      Except.error e) := by
  constructor
  · refine (c8_lookup_safety pValidator [aOverlap1]).1 ?_
    intro a ha
    rcases List.mem_cons.mp ha with rfl | h
    · decide
    · cases h
  · exact (c8_lookup_safety pValidator [aBadCourse]).2
      ⟨aBadCourse, List.mem_cons_self _ _, by decide⟩

/-- C7: two assignments sharing a room and a day whose intervals satisfy the
pairwise comparison `(s1 < e2) ∧ (s2 < e1)` make `validate` return
`is_valid=false` with a `room_conflict` naming both course ids; and when no
same-room same-day pair overlaps under that comparison, `check_room_conflicts`
reports nothing at all. -/
theorem c7_room_conflict_detection (p : GenerationPayload)
    (A : List AssignmentOutput) :
    (∀ a1 a2, [a1, a2].Sublist A → a1.room_id = a2.room_id →
      a1.day = a2.day →
      times_overlap a1.start_time a1.end_time a2.start_time a2.end_time =
        true →
      ∀ b confs, validate_timetable p A = Except.ok (b, confs) →
        b = false ∧ ∃ v ∈ confs, v.constraint_type = "room_conflict" ∧
          v.affected_assignments = [a1.course_id, a2.course_id]) ∧
    ((∀ a1 a2, [a1, a2].Sublist A → a1.room_id = a2.room_id →
      a1.day = a2.day →
      times_overlap a1.start_time a1.end_time a2.start_time a2.end_time =
        false) →
      check_room_conflicts p A = Except.ok []) := by
  constructor
  · intro a1 a2 hsub hr hd hov b confs hval
    have hpair : (a1, a2) ∈ conflictPairs (fun a => (a.room_id, a.day)) A :=
      mem_conflictPairs hsub (by rw [hr, hd])
    obtain ⟨c1, c2, c3, c4, c5, c6, c7, h1, -, -, -, -, -, -, hconfs, hb⟩ :=
      validate_all_ok_inv hval
    unfold check_room_conflicts at h1
    obtain ⟨out, hout, hsubout⟩ := mapFlatE_ok_mem h1 hpair
    rw [if_pos hov] at hout
    obtain ⟨room, -, hout⟩ := bind_ok_inv hout
    obtain ⟨cc1, -, hout⟩ := bind_ok_inv hout
    obtain ⟨cc2, -, hout⟩ := bind_ok_inv hout
    cases hout
    have hmem1 : roomConflictViolation room cc1 cc2 a1 a2 ∈ c1 :=
      hsubout _ (List.mem_cons_self _ _)
    have hmem : roomConflictViolation room cc1 cc2 a1 a2 ∈ confs := by
      rw [hconfs]
      exact List.mem_append_left _ (List.mem_append_left _
        (List.mem_append_left _ (List.mem_append_left _
          (List.mem_append_left _ (List.mem_append_left _ hmem1)))))
    have hfalse : confs.isEmpty = false := by
      cases hcs : confs with
      | nil => rw [hcs] at hmem; cases hmem
      | cons x xs => rfl
    exact ⟨hb.trans hfalse, _, hmem, rfl, rfl⟩
  · intro hno
    unfold check_room_conflicts
    apply mapFlatE_all_nil
    intro pr hpr
    obtain ⟨hsub, hkey⟩ := conflictPairs_mem hpr
    have hr : pr.1.room_id = pr.2.room_id := congrArg Prod.fst hkey
    have hd : pr.1.day = pr.2.day := congrArg Prod.snd hkey
    have hovf := hno pr.1 pr.2 hsub hr hd
    rw [if_neg (by rw [hovf]; exact Bool.false_ne_true)]
    rfl

/-- C7 witness: the S4 scenario — 09:00–10:30 and 09:30–11:00 in the same
room on Monday — gives `is_valid=false` and a `room_conflict` naming both
courses. -/
theorem c7_room_conflict_detection_witness :
    ∃ v ∈ confsOf (validate_timetable pValidator [aOverlap1, aOverlap2]),
      v.constraint_type = "room_conflict" ∧
      v.affected_assignments = [1, 2] := by
  have hok : (validate_timetable pValidator
      [aOverlap1, aOverlap2]).isOk = true := by decide
  cases hval : validate_timetable pValidator [aOverlap1, aOverlap2] with
  | error e => rw [hval] at hok; cases hok
  | ok r =>
      obtain ⟨b, confs⟩ := r
      have h := (c7_room_conflict_detection pValidator
        [aOverlap1, aOverlap2]).1 aOverlap1 aOverlap2
        (List.Sublist.refl _) rfl rfl (by decide) b confs hval
      obtain ⟨-, v, hv, hprop⟩ := h
      exact ⟨v, hv, hprop⟩
